import Mathlib

/-!
Verification development for the DecisionLog interview state machine
(`backend/src/agent.ts`).  The TypeScript source is shallowly embedded:

* JSON values produced by `JSON.parse` are modelled by the inductive `Json`
  (JavaScript numbers are modelled by exact rationals; the claims under
  study never depend on float rounding).
* The regex extraction `text.match(/\x7b[\s\S]*\x7d/)` used by every
  defensive-parse site is modelled by `greedyBraceExtract`: the match, when
  it exists, runs from the first opening brace to the last closing brace.
* `JSON.parse` is modelled by a fuel-indexed recursive-descent parser over
  the ECMA-404 grammar (`jsonParse`).
* Each Durable-Object handler becomes a pure function from the session
  record (plus the oracle's responses for the calls the handler makes) to
  the updated session record, a list of emitted output events, and an
  aborted flag recording whether the run threw past the handler (the
  top-level `fetch` catch absorbs such throws, keeping whatever mutations
  already happened).
-/

namespace DecisionLog

/-- Exact decimal number `mant * 10 ^ exp10`, the value of a JSON numeric
literal.  (JavaScript numbers are binary floats; every comparison the
source performs on them — `=== `, `>= 0.5`, truthiness — agrees with the
exact value for the magnitudes involved, so the exact representation is
used.) -/
structure JNum where
  mant : Int
  exp10 : Int

/-- Value equality of two decimal numbers (`0.5 === 0.50`). -/
def jnumEq (a b : JNum) : Bool :=
  let e := min a.exp10 b.exp10
  a.mant * 10 ^ (a.exp10 - e).toNat == b.mant * 10 ^ (b.exp10 - e).toNat

/-- `0.5 <= value`, by cross-multiplication with powers of ten. -/
def jnumGEhalf (a : JNum) : Bool :=
  (10 : Int) ^ (-a.exp10).toNat ≤ 2 * a.mant * 10 ^ a.exp10.toNat

/-- JavaScript values obtainable from `JSON.parse`. -/
inductive Json where
  | null : Json
  | bool : Bool → Json
  | num : JNum → Json
  | str : String → Json
  | arr : List Json → Json
  | obj : List (String × Json) → Json

/-- The character `\x7b` (left brace). -/
def lbrace : Char := Char.ofNat 123

/-- The character `\x7d` (right brace). -/
def rbrace : Char := Char.ofNat 125

/-- JSON whitespace characters accepted between tokens by `JSON.parse`. -/
def isJsonWs (c : Char) : Bool :=
  c = ' ' || c = '\t' || c = '\n' || c = '\r'

/-- Whitespace removed by `String.prototype.trim` (the common ASCII set;
the exotic Unicode spaces are not modelled). -/
def jsWsChar (c : Char) : Bool :=
  c = ' ' || c = '\t' || c = '\n' || c = '\r' ||
    c = Char.ofNat 11 || c = Char.ofNat 12

/-- Model of `String.prototype.trim`. -/
def jsTrim (s : String) : String :=
  String.mk (((s.data.dropWhile jsWsChar).reverse.dropWhile jsWsChar).reverse)

/-- Model of `String.prototype.toLowerCase` (ASCII case folding). -/
def jsToLower (s : String) : String :=
  String.mk (s.data.map Char.toLower)

/-- Property access `v.k` on a parsed value: defined only for objects, with
the last duplicate key winning (the observable behaviour of `JSON.parse` on
duplicate keys); every other receiver yields `undefined`, modelled `none`. -/
def jsGet : Json → String → Option Json
  | .obj fs, k => (fs.reverse.find? (fun p => p.1 = k)).map (fun p => p.2)
  | _, _ => none

/-- JavaScript truthiness of a parsed value (`NaN` cannot arise from
`JSON.parse`, so `num` is falsy exactly at `0`). -/
def jsTruthy : Json → Bool
  | .null => false
  | .bool b => b
  | .num q => q.mant ≠ 0
  | .str s => s ≠ ""
  | .arr _ => true
  | .obj _ => true

/-- Truthiness of a possibly-`undefined` value. -/
def jsTruthyO : Option Json → Bool
  | none => false
  | some j => jsTruthy j

/-- Strict equality `===` between possibly-`undefined` parsed values, as
used by the source's `findIndex`/`Set.has` checks.  Primitive values
compare structurally.  Objects and arrays compare by reference; every
site in the source compares values originating from distinct `JSON.parse`
events (or object literals), whose references always differ, so the
non-primitive cases are `false`. -/
def jsPrimEq : Json → Json → Bool
  | .null, .null => true
  | .bool a, .bool b => a = b
  | .num a, .num b => jnumEq a b
  | .str a, .str b => a = b
  | _, _ => false

/-- `===` lifted to possibly-`undefined` operands
(`undefined === undefined` is `true`). -/
def jsEq : Option Json → Option Json → Bool
  | none, none => true
  | some a, some b => jsPrimEq a b
  | _, _ => false

/-! ### The regex extraction

`text.match(/\x7b[\s\S]*\x7d/)`: the leftmost match starts at the first
`\x7b` of the string, and greediness extends it to the last `\x7d` of the
string; a match exists iff some `\x7d` occurs strictly after the first
`\x7b`. -/

/-- Suffix of the character list starting at its first left brace. -/
def fromFirstOpen : List Char → Option (List Char)
  | [] => none
  | c :: rest => if c = lbrace then some (c :: rest) else fromFirstOpen rest

/-- Longest prefix of the character list that ends with a right brace. -/
def upToLastClose (cs : List Char) : Option (List Char) :=
  let r := cs.reverse.dropWhile (fun c => c ≠ rbrace)
  if r.isEmpty then none else some r.reverse

/-- Model of `text.match(/\x7b[\s\S]*\x7d/)`, returning the matched
substring. -/
def greedyBraceExtract (t : String) : Option String :=
  match fromFirstOpen t.data with
  | none => none
  | some suf =>
    match suf with
    | [] => none
    | c :: rest =>
      match upToLastClose rest with
      | none => none
      | some body => some (String.mk (c :: body))

/-! ### Model of `JSON.parse` (ECMA-404 grammar, fuel-indexed) -/

/-- Hexadecimal digit test for `\u` escapes. -/
def isHex (c : Char) : Bool :=
  c.isDigit || ('a' ≤ c && c ≤ 'f') || ('A' ≤ c && c ≤ 'F')

/-- Parse the body of a JSON string literal (the opening quote already
consumed), returning the decoded characters and the remaining input. -/
def parseStringBody : List Char → Option (String × List Char)
  | [] => none
  | c :: rest =>
    if c = '"' then some ("", rest)
    else if c = '\\' then
      match rest with
      | [] => none
      | e :: rest2 =>
        let simple : Option Char :=
          if e = '"' then some '"'
          else if e = '\\' then some '\\'
          else if e = '/' then some '/'
          else if e = 'b' then some (Char.ofNat 8)
          else if e = 'f' then some (Char.ofNat 12)
          else if e = 'n' then some '\n'
          else if e = 'r' then some '\r'
          else if e = 't' then some '\t'
          else none
        match simple with
        | some d =>
          match parseStringBody rest2 with
          | some (s, r) => some (⟨d :: s.data⟩, r)
          | none => none
        | none =>
          if e = 'u' then
            match rest2 with
            | a :: b :: c2 :: d :: rest3 =>
              if isHex a && isHex b && isHex c2 && isHex d then
                let hv (x : Char) : Nat :=
                  if x.isDigit then x.toNat - 48
                  else if 'a' ≤ x ∧ x ≤ 'f' then x.toNat - 87
                  else x.toNat - 55
                let n := ((hv a * 16 + hv b) * 16 + hv c2) * 16 + hv d
                match parseStringBody rest3 with
                | some (s, r) => some (⟨Char.ofNat n :: s.data⟩, r)
                | none => none
              else none
            | _ => none
          else none
    else if c.toNat < 32 then none
    else
      match parseStringBody rest with
      | some (s, r) => some (⟨c :: s.data⟩, r)
      | none => none

/-- Read a nonempty run of decimal digits as a natural number. -/
def parseDigits : List Char → Option (Nat × Nat × List Char)
  | c :: rest =>
    if c.isDigit then
      match parseDigits rest with
      | some (v, k, r) => some ((c.toNat - 48) * 10 ^ k + v, k + 1, r)
      | none => some (c.toNat - 48, 1, rest)
    else none
  | [] => none

/-- Optional exponent part of a JSON number, given the sign, the combined
mantissa digits and the number of fraction digits already read. -/
def parseExpPart (sgn : Int) (ip fv fk : Nat) (cs3 : List Char) :
    Option (JNum × List Char) :=
  let mant : Int := sgn * ((ip * 10 ^ fk + fv : Nat) : Int)
  match cs3 with
  | e :: rest =>
    if e = 'e' ∨ e = 'E' then
      let (esgn, rest2) : Int × List Char :=
        match rest with
        | '+' :: r => (1, r)
        | '-' :: r => (-1, r)
        | _ => (1, rest)
      match parseDigits rest2 with
      | some (ev, _, r) => some (⟨mant, esgn * (ev : Int) - (fk : Int)⟩, r)
      | none => none
    else some (⟨mant, -(fk : Int)⟩, cs3)
  | [] => some (⟨mant, -(fk : Int)⟩, [])

/-- Parse a JSON number (sign, integer part with no leading zeros, optional
fraction, optional exponent) into an exact decimal. -/
def parseNumber (cs : List Char) : Option (JNum × List Char) :=
  let (sgn, cs1) : Int × List Char :=
    match cs with
    | '-' :: rest => (-1, rest)
    | _ => (1, cs)
  match cs1 with
  | c :: _ =>
    if ¬ c.isDigit then none
    else if c = '0' && (match cs1 with | _ :: d :: _ => d.isDigit | _ => false) then
      none
    else
      match parseDigits cs1 with
      | none => none
      | some (ip, _, cs2) =>
        match cs2 with
        | '.' :: restf =>
          -- a '.' not followed by digits is a syntax error
          match parseDigits restf with
          | none => none
          | some (fv, fk, cs3) => parseExpPart sgn ip fv fk cs3
        | _ => parseExpPart sgn ip 0 0 cs2
  | [] => none

mutual

/-- Fuel-indexed parser for one JSON value, leading whitespace allowed. -/
def parseJ : Nat → List Char → Option (Json × List Char)
  | 0, _ => none
  | fuel + 1, cs =>
    match cs.dropWhile isJsonWs with
    | 'n' :: 'u' :: 'l' :: 'l' :: rest => some (.null, rest)
    | 't' :: 'r' :: 'u' :: 'e' :: rest => some (.bool true, rest)
    | 'f' :: 'a' :: 'l' :: 's' :: 'e' :: rest => some (.bool false, rest)
    | c :: rest =>
      if c = '"' then
        match parseStringBody rest with
        | some (s, r) => some (.str s, r)
        | none => none
      else if c = '[' then
        match (match rest.dropWhile isJsonWs with
               | ']' :: r2 => some (Json.arr [], r2)
               | _ => none) with
        | some v => some v
        | none =>
          match parseElems fuel rest [] with
          | some (xs, r) => some (.arr xs, r)
          | none => none
      else if c = lbrace then
        match (match rest.dropWhile isJsonWs with
               | c2 :: r2 => if c2 = rbrace then some (Json.obj [], r2) else none
               | [] => none) with
        | some v => some v
        | none =>
          match parseFields fuel rest [] with
          | some (fs, r) => some (.obj fs, r)
          | none => none
      else if c = '-' ∨ c.isDigit then
        match parseNumber (c :: rest) with
        | some (q, r) => some (.num q, r)
        | none => none
      else none
    | [] => none

/-- Array elements after `[` (at least one element), accumulating parsed
values. -/
def parseElems : Nat → List Char → List Json → Option (List Json × List Char)
  | 0, _, _ => none
  | fuel + 1, cs, acc =>
    match parseJ fuel cs with
    | none => none
    | some (v, r) =>
      match r.dropWhile isJsonWs with
      | ',' :: r2 => parseElems fuel r2 (acc ++ [v])
      | ']' :: r2 => some (acc ++ [v], r2)
      | _ => none

/-- Object members after the opening brace (at least one member). -/
def parseFields : Nat → List Char → List (String × Json) →
    Option (List (String × Json) × List Char)
  | 0, _, _ => none
  | fuel + 1, cs, acc =>
    match cs.dropWhile isJsonWs with
    | k :: rest =>
      if k = '"' then
        match parseStringBody rest with
        | none => none
        | some (key, r) =>
          match r.dropWhile isJsonWs with
          | ':' :: r2 =>
            match parseJ fuel r2 with
            | none => none
            | some (v, r3) =>
              match r3.dropWhile isJsonWs with
              | ',' :: r4 => parseFields fuel r4 (acc ++ [(key, v)])
              | c2 :: r4 =>
                if c2 = rbrace then some (acc ++ [(key, v)], r4) else none
              | [] => none
          | _ => none
      else none
    | [] => none

end

/-- Model of `JSON.parse`: parse one value and require only whitespace to
remain.  The fuel is generous; it bounds nesting depth, which real inputs
never approach. -/
def jsonParse (t : String) : Option Json :=
  match parseJ (t.length + 2) t.data with
  | none => none
  | some (v, r) => if (r.dropWhile isJsonWs).isEmpty then some v else none

/-- The composite defensive-parse step shared by every oracle call site:
trim, regex-extract the brace-delimited substring, `JSON.parse` it.  `none`
covers both "no match" and "parse threw". -/
def oracleJson (text : String) : Option Json :=
  match greedyBraceExtract (jsTrim text) with
  | none => none
  | some sub => jsonParse sub

/-! ### Session data model (`SessionState` in `agent.ts`) -/

/-- The five dialogue phases. -/
inductive Phase where
  | intent
  | question_planning
  | interview
  | confirmation
  | synthesis
deriving DecidableEq

/-- One interview question.  The planner builds these by
`questions.map(q => (\x7b...q, answer: null\x7d))`, so `id`/`text`/`category` are
whatever the oracle's JSON carried (possibly `undefined`, modelled `none`);
`answer` starts as `null` and is only ever assigned parsed values or the raw
user message. -/
structure Question where
  id : Option Json
  text : Option Json
  category : Option Json
  answer : Option Json

/-- The session record owned by one Durable Object instance. -/
structure Session where
  phase : Phase
  intent : Option Json
  questions : List Question
  extraNotes : List String
  finalDoc : Option String
  awaitingConfirmation : Bool

/-- The constructor's in-memory initialisation. -/
def initSession : Session :=
  { phase := .intent
    intent := none
    questions := []
    extraNotes := []
    finalDoc := none
    awaitingConfirmation := false }

/-- Output chunks written to the response stream, abstracted to events.
Prompt wording is irrelevant to the session state; only the synthesizer
events are claim-relevant. -/
inductive Out where
  /-- "I understand. You want to build **…** which is a **…** project." -/
  | intentAck
  /-- "Goals: …" (evaluates `intentData.goals.join`). -/
  | intentGoals
  /-- "I am now generating some architecture questions for you..." -/
  | planningNote
  /-- "Error: Intent not found." -/
  | errIntentNotFound
  /-- "**category**: text" for the next unanswered question. -/
  | askQuestion (q : Question)
  /-- The fixed confirmation prompt block emitted by `requestConfirmation`. -/
  | confirmPrompt
  /-- "Thank you for the additional information. " -/
  | thanksExtra
  /-- "I see you'd like to make changes. " -/
  | editAck
  /-- "**All questions answered! Generating architecture document...**" -/
  | synthHeader
  /-- The generated document, written verbatim. -/
  | synthDoc (text : String)
  /-- "Error generating architecture document. Please try again." -/
  | synthError

/-- Result of one handler invocation: the updated session, the emitted
events, and whether the handler threw (aborting the rest of the run; the
top-level catch in `fetch` absorbs the throw). -/
structure HRes where
  session : Session
  out : List Out
  aborted : Bool

/-- Outcome of one `env.AI.run` call: the response text, or a thrown
transport error. -/
abbrev OracleCall := Except Unit String

/-- The oracle responses available to one inbound-message run, one per
call site the run can reach. -/
structure OracleEnv where
  intentO : OracleCall
  plannerO : OracleCall
  mapperO : OracleCall
  synthO : OracleCall

/-! ### Intent handler (`runIntentAgent`, agent.ts lines 113-161) -/

/-- The hard-coded fallback record
`\x7bprojectName: "Unknown", scope: "General", goals: [userMessage]\x7d`. -/
def intentFallback (raw : String) : Json :=
  .obj [("projectName", .str "Unknown"), ("scope", .str "General"),
        ("goals", .arr [.str raw])]

/-- The intent value stored by `runIntentAgent`: defensive parse of the
oracle text, falling back on no-match or parse exception. -/
def computeIntent (text raw : String) : Json :=
  match oracleJson text with
  | some j => j
  | none => intentFallback raw

/-- Whether `v.goals.join(", ")` evaluates without throwing: `goals` must
be an array (join on any array succeeds; on anything else it is a
`TypeError`). -/
def goalsJoinable (j : Json) : Bool :=
  match jsGet j "goals" with
  | some (.arr _) => true
  | _ => false

/-! ### Question planner (`runQuestionPlanner`, agent.ts lines 163-264) -/

/-- One entry of the built-in fallback question catalog. -/
def catalogItem (i t c : String) : Json :=
  .obj [("id", .str i), ("text", .str t), ("category", .str c)]

/-- The fixed `fallbackQuestions` catalog (agent.ts lines 235-244),
verbatim. -/
def fallbackQuestions : List Json :=
  [ catalogItem "q1" "What are your data storage requirements? Do you need relational data for structured information, document storage for flexible schemas, or both? What are your expected data volumes, read/write patterns, and query requirements?" "Data"
  , catalogItem "q2" "How do you plan to handle scalability? What is your expected user base and growth trajectory? Do you need horizontal scaling, vertical scaling, or both? What are your performance requirements?" "Scalability"
  , catalogItem "q3" "What security and authentication mechanisms do you need? Will you support multiple authentication methods? What are your data privacy and compliance requirements?" "Security"
  , catalogItem "q4" "What is your deployment and infrastructure strategy? Will you deploy on cloud, on-premises, or hybrid? Do you need containerization? What are your CI/CD requirements?" "Infrastructure"
  , catalogItem "q5" "What are your frontend and user experience requirements? Do you need a web app, mobile app, or both? What frameworks are you considering? What are your accessibility requirements?" "Frontend"
  , catalogItem "q6" "What backend architecture and API design do you need? Will you use REST, GraphQL, or both? What are your API versioning, rate limiting, and documentation requirements?" "Backend"
  , catalogItem "q7" "What third-party integrations do you need? Will you integrate with payment processors, messaging services, analytics tools, or other external APIs? What are your integration patterns?" "Integration"
  , catalogItem "q8" "What are your monitoring, logging, and observability requirements? Do you need real-time monitoring, error tracking, performance metrics, or distributed tracing?" "Observability"
  ]

/-- `v.length === 0` under JavaScript strict equality for a truthy
non-array `questions` value: an object whose `length` property is the
number 0 (a truthy string always has positive length; numbers and
booleans have no `length`, and `undefined === 0` is false). -/
def jsLengthIsZero : Json → Bool
  | .obj fs =>
    match jsGet (.obj fs) "length" with
    | some (.num q) => q.mant == 0
    | _ => false
  | _ => false

/-- Decode the planner oracle text into the `questions` value the code
works with.  `data.questions || []` yields `[]` when the defensive parse
failed or the field is absent/falsy.  A truthy non-array whose `length`
property is strictly equal to 0 takes the `questions.length === 0` branch
(agent.ts line 249): `questions` is replaced by the full catalog and the
run completes normally — the same outcome as decoding `[]`, so modelled
`.ok []`.  Any other truthy non-array makes a subsequent `.length`
comparison, `questions.map` (line 253) or the final `.map` (line 262)
throw a `TypeError` (not caught inside the planner), modelled `.error`. -/
def decodeQuestions (text : String) : Except Unit (List Json) :=
  match oracleJson text with
  | none => .ok []
  | some data =>
    match jsGet data "questions" with
    | none => .ok []
    | some v =>
      if ¬ jsTruthy v then .ok []
      else
        match v with
        | .arr xs => .ok xs
        | _ => if jsLengthIsZero v then .ok [] else .error ()

/-- Is the value JSON `null`?  (`q.id` on a `null` array entry throws.) -/
def isNullJson : Json → Bool
  | .null => true
  | _ => false

/-- The repair loop (agent.ts lines 250-257): push catalog items until 8
questions are present, skipping ids already in `existingIds` (computed
once, before the loop). -/
def mergeLoop (existing : List (Option Json)) :
    List Json → List Json → List Json
  | acc, [] => acc
  | acc, f :: fs =>
    if 8 ≤ acc.length then acc
    else if existing.any (fun e => jsEq e (jsGet f "id")) then
      mergeLoop existing acc fs
    else mergeLoop existing (acc ++ [f]) fs

/-- The validation/repair policy (agent.ts lines 233-259) on the decoded
question list.  A `null` entry in a short list makes `q => q.id` throw
while building `existingIds`, modelled `.error`. -/
def plannerRepair (qs : List Json) : Except Unit (List Json) :=
  if qs.length = 0 then .ok fallbackQuestions
  else if qs.length < 8 then
    if qs.any isNullJson then .error ()
    else .ok (mergeLoop (qs.map (fun j => jsGet j "id")) qs fallbackQuestions)
  else .ok qs

/-- `(\x7b...q, answer: null\x7d)` for one decoded entry: keep the entry's own
`id`/`text`/`category` (property access on non-objects yields
`undefined`) and null the answer. -/
def mkQuestion (j : Json) : Question :=
  { id := jsGet j "id", text := jsGet j "text", category := jsGet j "category",
    answer := none }

/-- The decode-repair-store tail of the planner, after the oracle call
succeeded with `text`. -/
def plannerCore (s : Session) (text : String) : HRes :=
  match decodeQuestions text with
  | .error _ => ⟨s, [], true⟩
  | .ok qs0 =>
    match plannerRepair qs0 with
    | .error _ => ⟨s, [], true⟩
    | .ok qs1 =>
      ⟨{ s with questions := qs1.map mkQuestion, phase := .interview },
       [], false⟩

/-- The question planner.  Oracle throw (`env.AI.run` is outside any try)
and the repair-crash cases abort the run with the session untouched. -/
def runQuestionPlanner (s : Session) (oracle : OracleCall) : HRes :=
  if ¬ jsTruthyO s.intent then ⟨s, [.errIntentNotFound], false⟩
  else if ¬ (s.intent.elim false goalsJoinable) then ⟨s, [], true⟩
  else
    match oracle with
    | .error _ => ⟨s, [], true⟩
    | .ok text => plannerCore s text

/-! ### Answer mapper (`mapAnswerToQuestions`, agent.ts lines 310-400)

The candidate list `questionsToCheck` is only interpolated into the
oracle prompt; the application loop always searches
`this.session.questions`, so the prompt construction has no effect on the
session and is not modelled. -/

/-- A JavaScript number as produced by `Number()`: a finite exact decimal
or a signed infinity (`none` of the surrounding `Option` is NaN). -/
inductive NumV where
  | fin (x : JNum)
  | inf (pos : Bool)

/-- Digit value of `c` in the given radix, for `0x`/`0o`/`0b` literals. -/
def radixDigitVal (radix : Nat) (c : Char) : Option Nat :=
  let v :=
    if c.isDigit then some (c.toNat - 48)
    else if 'a' ≤ c ∧ c ≤ 'z' then some (c.toNat - 87)
    else if 'A' ≤ c ∧ c ≤ 'Z' then some (c.toNat - 55)
    else none
  match v with
  | some n => if n < radix then some n else none
  | none => none

def parseRadixAux (radix : Nat) : List Char → Nat → Option Nat
  | [], acc => some acc
  | c :: rest, acc =>
    match radixDigitVal radix c with
    | some d => parseRadixAux radix rest (acc * radix + d)
    | none => none

/-- A nonempty all-digit tail in the given radix. -/
def parseRadixDigits (radix : Nat) (cs : List Char) : Option Nat :=
  match cs with
  | [] => none
  | _ => parseRadixAux radix cs 0

/-- Read a (possibly empty) run of decimal digits: value, count, rest. -/
def splitDigits : List Char → Nat × Nat × List Char
  | [] => (0, 0, [])
  | c :: rest =>
    if c.isDigit then
      match splitDigits rest with
      | (v, k, r) => ((c.toNat - 48) * 10 ^ k + v, k + 1, r)
    else (0, 0, c :: rest)

/-- Optional exponent tail of a `Number()` decimal literal; the input must
be fully consumed. -/
def decExpTail (mant : Int) (fk : Nat) : List Char → Option JNum
  | [] => some ⟨mant, -(fk : Int)⟩
  | e :: rest =>
    if e = 'e' ∨ e = 'E' then
      let (esgn, rest2) : Int × List Char :=
        match rest with
        | '+' :: r2 => (1, r2)
        | '-' :: r2 => (-1, r2)
        | _ => (1, rest)
      match splitDigits rest2 with
      | (ev, ek, r3) =>
        if ek = 0 ∨ ¬ r3.isEmpty then none
        else some ⟨mant, esgn * (ev : Int) - (fk : Int)⟩
    else none

/-- `Number()`'s unsigned decimal literal: digits on either side of an
optional dot (at least one digit in total — `.5` and `12.` are legal,
unlike in JSON), optional exponent. -/
def parseDecLit (cs : List Char) : Option JNum :=
  match splitDigits cs with
  | (iv, ik, r1) =>
    match r1 with
    | '.' :: restf =>
      match splitDigits restf with
      | (fv, fk, r2) =>
        if ik + fk = 0 then none
        else decExpTail (Int.ofNat (iv * 10 ^ fk + fv)) fk r2
    | _ =>
      if ik = 0 then none
      else decExpTail (Int.ofNat iv) 0 r1

def unsignedNum (cs : List Char) (pos : Bool) : Option NumV :=
  if cs = "Infinity".data then some (.inf pos)
  else (parseDecLit cs).map
    (fun x => .fin (if pos then x else ⟨-x.mant, x.exp10⟩))

def signedDecOrInf : List Char → Option NumV
  | '+' :: rest => unsignedNum rest true
  | '-' :: rest => unsignedNum rest false
  | cs => unsignedNum cs true

/-- Model of JavaScript `Number()` on a string (the StringNumericLiteral
grammar): trimmed-empty is `0`; `0x`/`0o`/`0B` radix integers (no sign);
otherwise an optionally signed decimal literal or `Infinity`. -/
def jsStringToNumber (s : String) : Option NumV :=
  match (jsTrim s).data with
  | [] => some (.fin ⟨0, 0⟩)
  | '0' :: c :: rest =>
    if c = 'x' ∨ c = 'X' then
      (parseRadixDigits 16 rest).map (fun n => .fin ⟨(n : Int), 0⟩)
    else if c = 'o' ∨ c = 'O' then
      (parseRadixDigits 8 rest).map (fun n => .fin ⟨(n : Int), 0⟩)
    else if c = 'b' ∨ c = 'B' then
      (parseRadixDigits 2 rest).map (fun n => .fin ⟨(n : Int), 0⟩)
    else signedDecOrInf ('0' :: c :: rest)
  | cs => signedDecOrInf cs

/-- `0.5 <= v` for a `Number()` result; NaN comparisons are false. -/
def numVGEhalf : Option NumV → Bool
  | some (.fin x) => jnumGEhalf x
  | some (.inf pos) => pos
  | none => false

/-- JavaScript coercion of an arbitrary parsed value through `>= 0.5`.
The `joined` flag distinguishes a value met directly (booleans coerce to
0/1) from one met as the single element of an array being stringified by
`Array.prototype.join` (booleans become `"true"`/`"false"`, hence NaN;
`null` joins as the empty string, hence 0).  Arrays stringify by joining
with commas: empty → `""` → 0; two or more elements contain a comma and
are NaN; a single element stringifies recursively. -/
def confCoerce : Bool → Json → Bool
  | _, .num q => jnumGEhalf q
  | joined, .bool b => if joined then false else b
  | _, .null => false
  | _, .str s => numVGEhalf (jsStringToNumber s)
  | _, .obj _ => false
  | _, .arr [] => false
  | _, .arr [x] => confCoerce true x
  | _, .arr (_ :: _ :: _) => false

/-- The gate `mapped.confidence >= 0.5` (undefined is NaN, hence false). -/
def confGE05 : Option Json → Bool
  | none => false
  | some j => confCoerce false j

/-- Decode the mapper oracle text into the iterated `mappedAnswers`.
`data.answers || []` as in the planner; a truthy non-array, non-string
value makes `for…of` throw (caught by the mapper's own catch), modelled
`.error`; a nonempty string iterates its characters (each a 1-character
string with no properties). -/
def decodeAnswers (text : String) : Except Unit (List Json) :=
  match oracleJson text with
  | none => .ok []
  | some data =>
    match jsGet data "answers" with
    | none => .ok []
    | some v =>
      if ¬ jsTruthy v then .ok []
      else
        match v with
        | .arr xs => .ok xs
        | .str s => .ok (s.data.map (fun c => Json.str (String.mk [c])))
        | _ => .error ()

/-- `findIndex(q => q.id === qid)` followed by an answer assignment;
returns whether a match was found (`questionIndex >= 0`). -/
def setAnswerById (qid : Option Json) (v : Json) :
    List Question → List Question × Bool
  | [] => ([], false)
  | q :: rest =>
    if jsEq q.id qid then ({ q with answer := some v } :: rest, true)
    else (q :: (setAnswerById qid v rest).1, (setAnswerById qid v rest).2)

/-- The gate of the application loop for one mapping entry:
`mapped.questionId && mapped.answer && mapped.confidence >= 0.5`. -/
def entryGate (e : Json) : Bool :=
  jsTruthyO (jsGet e "questionId") && jsTruthyO (jsGet e "answer") &&
    confGE05 (jsGet e "confidence")

/-- One iteration of the application loop (agent.ts lines 371-380). -/
def applyEntry (qs : List Question) (e : Json) : List Question × Bool :=
  if entryGate e then
    match jsGet e "answer" with
    | some a => setAnswerById (jsGet e "questionId") a qs
    | none => (qs, false)
  else (qs, false)

/-- The full application loop: the updated questions, `answeredCount`,
and whether the loop threw.  A JSON `null` element throws `TypeError` at
`mapped.questionId` (agent.ts line 372); the throw escapes the loop with
the writes of earlier iterations already applied, and is handled by the
mapper's own catch.  Any other element merely yields `undefined` on the
property accesses and is skipped by the gate. -/
def applyMapped (qs : List Question) : List Json → List Question × Nat × Bool
  | [] => (qs, 0, false)
  | e :: es =>
    if isNullJson e then (qs, 0, true)
    else
      ((applyMapped (applyEntry qs e).1 es).1,
       (applyMapped (applyEntry qs e).1 es).2.1
         + (if (applyEntry qs e).2 then 1 else 0),
       (applyMapped (applyEntry qs e).1 es).2.2)

/-- The catch-branch fallback (agent.ts lines 394-398):
`findIndex(q => q.answer === null)` and assign the raw message. -/
def setFirstUnansweredDirect (msg : String) : List Question → List Question
  | [] => []
  | q :: rest =>
    if q.answer.isNone then { q with answer := some (.str msg) } :: rest
    else q :: setFirstUnansweredDirect msg rest

/-- Does strict equality on this id compare structurally?  (Primitives
do; object/array ids compare by reference.) -/
def isPrimId : Option Json → Bool
  | some (.obj _) => false
  | some (.arr _) => false
  | _ => true

/-- The zero-applied fallback (agent.ts lines 383-391): take the first
unanswered question and assign the raw message at
`findIndex(q => q.id === unanswered[0].id)`.  For a primitive id that is
the first strict-equality match; a non-primitive id matches only by
reference, and `JSON.parse` never aliases nodes, so the unique match is
the first unanswered question itself. -/
def fallbackAssignById (msg : String) (qs : List Question) : List Question :=
  match qs.filter (fun q => q.answer.isNone) with
  | [] => qs
  | u :: _ =>
    if isPrimId u.id then (setAnswerById u.id (.str msg) qs).1
    else setFirstUnansweredDirect msg qs

/-- The answer mapper.  Never throws past itself: the oracle throw, the
`for…of` TypeError and the mid-loop `null`-entry TypeError are all caught
and routed to the phase-independent direct fallback — in the mid-loop
case on top of the writes already applied before the throw. -/
def mapAnswerToQuestions (s : Session) (msg : String) (oracle : OracleCall) :
    Session :=
  match oracle with
  | .error _ => { s with questions := setFirstUnansweredDirect msg s.questions }
  | .ok text =>
    match decodeAnswers text with
    | .error _ => { s with questions := setFirstUnansweredDirect msg s.questions }
    | .ok entries =>
      if (applyMapped s.questions entries).2.2 then
        { s with questions :=
            setFirstUnansweredDirect msg (applyMapped s.questions entries).1 }
      else if (applyMapped s.questions entries).2.1 = 0 ∧ s.phase = .interview then
        { s with questions := fallbackAssignById msg (applyMapped s.questions entries).1 }
      else { s with questions := (applyMapped s.questions entries).1 }

/-! ### Confirmation, interview, synthesis, post-edit handlers -/

/-- `requestConfirmation` (agent.ts lines 300-308). -/
def requestConfirmation (s : Session) : Session × List Out :=
  ({ s with awaitingConfirmation := true }, [.confirmPrompt])

/-- `runInterviewTurn` (agent.ts lines 266-298). -/
def runInterviewTurn (s : Session) (userMessage : Option String)
    (mapperO : OracleCall) : Session × List Out :=
  match userMessage with
  | some m =>
    match s.questions.filter (fun q => q.answer.isNone) with
    | [] => requestConfirmation { s with phase := Phase.confirmation }
    | _ :: _ =>
      match (mapAnswerToQuestions s m mapperO).questions.filter
          (fun q => q.answer.isNone) with
      | [] =>
        requestConfirmation
          { mapAnswerToQuestions s m mapperO with phase := Phase.confirmation }
      | nextQ :: _ => (mapAnswerToQuestions s m mapperO, [.askQuestion nextQ])
  | none =>
    match s.questions.filter (fun q => q.answer.isNone) with
    | [] => requestConfirmation { s with phase := Phase.confirmation }
    | firstQ :: _ => (s, [.askQuestion firstQ])

/-- Whether `intent?.goals.join(", ")` in the synthesizer prompt evaluates:
optional chaining short-circuits a null intent to `undefined` (no throw);
a non-null intent needs an array `goals`. -/
def synthPromptOk : Option Json → Bool
  | none => true
  | some j => goalsJoinable j

/-- `JSON.stringify` of the success envelope `\x7bresponse: ""\x7d`, the
text stored when the payload string is empty (see `synthesizedDoc`). -/
def emptyRespStringify : String := "\x7b\"response\":\"\"\x7d"

/-- The text stored in `finalDoc` on a successful oracle call (agent.ts
lines 467-479): `response.response` truthy keeps the raw string; an empty
payload string is falsy, the response object is not itself a string, so
the final `else` stores `JSON.stringify(response)`. -/
def synthesizedDoc (text : String) : String :=
  if text = "" then emptyRespStringify else text

/-- `runSynthesizer` (agent.ts lines 434-492).  The header is written
before the prompt is built; the prompt-building TypeError (non-array
goals) aborts before the oracle call and before the final phase
assignment.  Oracle throw is caught, the fixed error line is written, and
`this.session.phase = "synthesis"` still runs. -/
def runSynthesizer (s : Session) (oracle : OracleCall) : HRes :=
  if ¬ synthPromptOk s.intent then ⟨s, [.synthHeader], true⟩
  else
    match oracle with
    | .ok text =>
      ⟨{ s with finalDoc := some (synthesizedDoc text), phase := .synthesis },
       [.synthHeader, .synthDoc (synthesizedDoc text)], false⟩
    | .error _ =>
      ⟨{ s with phase := .synthesis }, [.synthHeader, .synthError], false⟩

/-- The fixed proceed keyword list (agent.ts line 404). -/
def proceedKeywords : List String :=
  ["yes", "proceed", "generate", "go ahead", "continue", "ready"]

/-- Is `small` a prefix of `big`? -/
def startsWithList : List Char → List Char → Bool
  | _, [] => true
  | [], _ :: _ => false
  | c :: cs, d :: ds => c = d && startsWithList cs ds

/-- JavaScript `hay.includes(needle)` on the character lists. -/
def containsSubList (needle : List Char) : List Char → Bool
  | [] => startsWithList [] needle
  | c :: rest => startsWithList (c :: rest) needle || containsSubList needle rest

/-- `lowerMessage.includes(keyword)`. -/
def jsIncludes (hay needle : String) : Bool :=
  containsSubList needle.data hay.data

/-- `proceedKeywords.some(k => userMessage.toLowerCase().trim().includes(k))`. -/
def shouldProceed (userMessage : String) : Bool :=
  proceedKeywords.any (fun k => jsIncludes (jsTrim (jsToLower userMessage)) k)

/-- `handleConfirmation` (agent.ts lines 402-420). -/
def handleConfirmation (s : Session) (userMessage : String)
    (mapperO synthO : OracleCall) : HRes :=
  if shouldProceed userMessage then
    runSynthesizer { s with phase := .synthesis, awaitingConfirmation := false }
      synthO
  else
    ⟨(requestConfirmation (mapAnswerToQuestions s userMessage mapperO)).1,
     .thanksExtra
       :: (requestConfirmation (mapAnswerToQuestions s userMessage mapperO)).2,
     false⟩

/-- `handlePostGenerationEdit` (agent.ts lines 422-432). -/
def handlePostGenerationEdit (s : Session) (userMessage : String)
    (mapperO : OracleCall) : HRes :=
  ⟨(requestConfirmation
      { mapAnswerToQuestions s userMessage mapperO with
        phase := Phase.confirmation }).1,
   .editAck
     :: (requestConfirmation
          { mapAnswerToQuestions s userMessage mapperO with
            phase := Phase.confirmation }).2,
   false⟩

/-- `runIntentAgent` (agent.ts lines 113-161): oracle throw aborts before
any mutation; the acknowledgment's `goals.join` throws after `intent` and
`phase` were already assigned; otherwise the planner and then the
interview turn are chained synchronously. -/
def intentChain (s1 : Session) (e : OracleEnv) : HRes :=
  if (runQuestionPlanner s1 e.plannerO).aborted then
    ⟨(runQuestionPlanner s1 e.plannerO).session,
     [.intentAck, .intentGoals, .planningNote]
       ++ (runQuestionPlanner s1 e.plannerO).out, true⟩
  else
    ⟨(runInterviewTurn (runQuestionPlanner s1 e.plannerO).session none
        e.mapperO).1,
     [.intentAck, .intentGoals, .planningNote]
       ++ (runQuestionPlanner s1 e.plannerO).out
       ++ (runInterviewTurn (runQuestionPlanner s1 e.plannerO).session none
            e.mapperO).2, false⟩

def runIntentAgent (s : Session) (userMessage : String) (e : OracleEnv) :
    HRes :=
  match e.intentO with
  | .error _ => ⟨s, [], true⟩
  | .ok text =>
    if ¬ goalsJoinable (computeIntent text userMessage) then
      ⟨{ s with
          intent := some (computeIntent text userMessage)
          phase := Phase.question_planning }, [.intentAck], true⟩
    else
      intentChain
        { s with
          intent := some (computeIntent text userMessage)
          phase := Phase.question_planning } e

/-! ### Dispatcher (`fetch`, agent.ts lines 60-94) -/

/-- One full inbound-message run: dispatch on phase; in the
`question_planning` phase the planner is followed by an interview turn
with a null message (unless the planner threw).  The top-level catch
absorbs handler throws, so the run always yields the mutated session. -/
def step (s : Session) (userMessage : String) (e : OracleEnv) :
    Session × List Out :=
  match s.phase with
  | .intent =>
    ((runIntentAgent s userMessage e).session,
     (runIntentAgent s userMessage e).out)
  | .question_planning =>
    if (runQuestionPlanner s e.plannerO).aborted then
      ((runQuestionPlanner s e.plannerO).session,
       (runQuestionPlanner s e.plannerO).out)
    else
      ((runInterviewTurn (runQuestionPlanner s e.plannerO).session none
          e.mapperO).1,
       (runQuestionPlanner s e.plannerO).out
         ++ (runInterviewTurn (runQuestionPlanner s e.plannerO).session none
              e.mapperO).2)
  | .interview => runInterviewTurn s (some userMessage) e.mapperO
  | .confirmation =>
    ((handleConfirmation s userMessage e.mapperO e.synthO).session,
     (handleConfirmation s userMessage e.mapperO e.synthO).out)
  | .synthesis =>
    ((handlePostGenerationEdit s userMessage e.mapperO).session,
     (handlePostGenerationEdit s userMessage e.mapperO).out)

/-- Session states reachable from the fresh session by complete runs. -/
inductive Reachable : Session → Prop where
  | init : Reachable initSession
  | next (s : Session) (userMessage : String) (e : OracleEnv) :
      Reachable s → Reachable (step s userMessage e).1

/-! ### Derived notions used by the claims -/

/-- Pairwise distinctness of a list of id values under strict equality. -/
def idsDistinctJ : List (Option Json) → Bool
  | [] => true
  | x :: xs => xs.all (fun y => !jsEq x y) && idsDistinctJ xs

/-- All question ids in the session are pairwise distinct (the §3 data-model
invariant "id unique within session"). -/
def idsDistinct (qs : List Question) : Bool :=
  idsDistinctJ (qs.map (fun q => q.id))

/-- The question fields other than `answer`, for frame statements. -/
def stripAnswer (q : Question) : Option Json × Option Json × Option Json :=
  (q.id, q.text, q.category)

/-- Index of the first unanswered question,
`findIndex(q => q.answer === null)`. -/
def firstUnansweredIdx : List Question → Option Nat
  | [] => none
  | q :: rest =>
    if q.answer.isNone then some 0 else (firstUnansweredIdx rest).map (· + 1)

/-- Number of answered questions (as the frontend progress bar counts). -/
def countAnswered (qs : List Question) : Nat :=
  qs.countP (fun q => q.answer.isSome)

/-- `answeredCount` produced by one mapper run: the number of applied
entries (up to the mid-loop throw, if any), `0` when the oracle threw or
`for…of` threw. -/
def appliedCount (qs : List Question) (oracle : OracleCall) : Nat :=
  match oracle with
  | .error _ => 0
  | .ok text =>
    match decodeAnswers text with
    | .error _ => 0
    | .ok entries => (applyMapped qs entries).2.1

/-- Characters of a balanced-brace block: called on a suffix beginning at a
left brace with depth 0, returns the characters through the brace that
rebalances. -/
def balancedScan : Nat → List Char → Option (List Char)
  | _, [] => none
  | d, c :: rest =>
    if c = lbrace then (balancedScan (d + 1) rest).map (fun l => c :: l)
    else if c = rbrace then
      if d = 1 then some [c]
      else if d = 0 then none
      else (balancedScan (d - 1) rest).map (fun l => c :: l)
    else (balancedScan d rest).map (fun l => c :: l)

/-- Modelled from the spec (§4.2 "locate the first top-level
balanced-brace JSON object substring"): the substring running from the
first left brace through its matching right brace, by brace counting.
This is the extraction the spec describes; the source instead uses the
greedy regex modelled by `greedyBraceExtract`, and the two are compared in
the C6 theorems. -/
def firstBalancedSub (t : String) : Option String :=
  match fromFirstOpen (jsTrim t).data with
  | none => none
  | some suf => (balancedScan 0 suf).map (fun cs => String.mk cs)

/-! ### Lemmas: strict equality -/

theorem intBeq_comm (x y : Int) : (x == y) = (y == x) := by
  by_cases h : x = y
  · subst h; rfl
  · rw [beq_eq_false_iff_ne.mpr h, beq_eq_false_iff_ne.mpr (Ne.symm h)]

theorem jnumEq_symm (a b : JNum) : jnumEq a b = jnumEq b a := by
  unfold jnumEq
  rw [min_comm]
  exact intBeq_comm ..

theorem jnumEq_refl (a : JNum) : jnumEq a a = true := by
  unfold jnumEq
  simp

theorem jsPrimEq_symm (a b : Json) : jsPrimEq a b = jsPrimEq b a := by
  cases a <;> cases b <;> simp only [jsPrimEq, jnumEq_symm] <;> try rfl
  all_goals
    rw [decide_eq_decide]
    exact eq_comm

theorem jsEq_symm (a b : Option Json) : jsEq a b = jsEq b a := by
  cases a <;> cases b <;> simp [jsEq, jsPrimEq_symm]

theorem jsEq_refl_prim (a : Option Json) (h : isPrimId a = true) :
    jsEq a a = true := by
  match a with
  | none => rfl
  | some .null => rfl
  | some (.bool b) => simp [jsEq, jsPrimEq]
  | some (.num q) => simp [jsEq, jsPrimEq, jnumEq_refl]
  | some (.str s) => simp [jsEq, jsPrimEq]
  | some (.arr _) => simp [isPrimId] at h
  | some (.obj _) => simp [isPrimId] at h

/-! ### Lemmas: the answer-application list operations -/

theorem setAnswerById_strip (qid : Option Json) (v : Json) :
    ∀ qs : List Question,
      ((setAnswerById qid v qs).1).map stripAnswer = qs.map stripAnswer := by
  intro qs
  induction qs with
  | nil => rfl
  | cons q rest ih =>
    by_cases h : jsEq q.id qid = true
    · simp [setAnswerById, h, stripAnswer]
    · simp only [setAnswerById, h]
      simp [stripAnswer, ih]

theorem setFirstUnansweredDirect_strip (msg : String) :
    ∀ qs : List Question,
      (setFirstUnansweredDirect msg qs).map stripAnswer = qs.map stripAnswer := by
  intro qs
  induction qs with
  | nil => rfl
  | cons q rest ih =>
    by_cases h : q.answer.isNone
    · simp [setFirstUnansweredDirect, h, stripAnswer]
    · simp [setFirstUnansweredDirect, h, stripAnswer, ih]

theorem fallbackAssignById_strip (msg : String) (qs : List Question) :
    (fallbackAssignById msg qs).map stripAnswer = qs.map stripAnswer := by
  unfold fallbackAssignById
  cases h : qs.filter (fun q => q.answer.isNone) with
  | nil => rfl
  | cons u rest =>
    by_cases hp : isPrimId u.id = true
    · simp [hp, setAnswerById_strip]
    · simp [hp, setFirstUnansweredDirect_strip]

theorem applyEntry_strip (qs : List Question) (e : Json) :
    ((applyEntry qs e).1).map stripAnswer = qs.map stripAnswer := by
  unfold applyEntry
  by_cases h : entryGate e = true
  · simp only [h, if_true]
    cases jsGet e "answer" with
    | none => rfl
    | some a => exact setAnswerById_strip _ _ _
  · simp [h]

theorem applyMapped_strip (es : List Json) :
    ∀ qs : List Question,
      ((applyMapped qs es).1).map stripAnswer = qs.map stripAnswer := by
  induction es with
  | nil => intro qs; rfl
  | cons e es ih =>
    intro qs
    simp only [applyMapped]
    by_cases hn : isNullJson e = true
    · rw [if_pos hn]
    · rw [if_neg hn]
      have h1 := applyEntry_strip qs e
      have h2 := ih (applyEntry qs e).1
      exact h2.trans h1

/-- No list operation of the mapper changes `id`, `text`, `category`, the
number of questions, or their order. -/
theorem mapAnswer_strip (s : Session) (msg : String) (o : OracleCall) :
    ((mapAnswerToQuestions s msg o).questions).map stripAnswer
      = s.questions.map stripAnswer := by
  unfold mapAnswerToQuestions
  split
  · exact setFirstUnansweredDirect_strip _ _
  · split
    · exact setFirstUnansweredDirect_strip _ _
    · split
      · exact (setFirstUnansweredDirect_strip _ _).trans (applyMapped_strip _ _)
      · split
        · exact (fallbackAssignById_strip _ _).trans (applyMapped_strip _ _)
        · exact applyMapped_strip _ _

/-! ### Lemmas: answers are never cleared -/

/-- Position-wise: every answered question stays answered. -/
def keepsAnswered (qs qs' : List Question) : Prop :=
  List.Forall₂ (fun a b => a.answer.isSome = true → b.answer.isSome = true) qs qs'

theorem keepsAnswered_refl (qs : List Question) : keepsAnswered qs qs :=
  List.forall₂_same.mpr (fun _ _ h => h)

theorem keepsAnswered_trans {a b c : List Question} :
    keepsAnswered a b → keepsAnswered b c → keepsAnswered a c := by
  intro h1 h2
  induction h1 generalizing c with
  | nil => cases h2; exact List.Forall₂.nil
  | cons hab tail ih =>
    cases h2 with
    | cons hbc tl2 => exact List.Forall₂.cons (fun h => hbc (hab h)) (ih tl2)

theorem setAnswerById_keeps (qid : Option Json) (v : Json) :
    ∀ qs : List Question, keepsAnswered qs (setAnswerById qid v qs).1 := by
  intro qs
  induction qs with
  | nil => exact List.Forall₂.nil
  | cons q rest ih =>
    by_cases h : jsEq q.id qid = true
    · simp only [setAnswerById, h, if_true]
      exact List.Forall₂.cons (fun _ => rfl) (keepsAnswered_refl rest)
    · simp only [setAnswerById, h, if_false]
      exact List.Forall₂.cons (fun h => h) ih

theorem setFirstUnansweredDirect_keeps (msg : String) :
    ∀ qs : List Question, keepsAnswered qs (setFirstUnansweredDirect msg qs) := by
  intro qs
  induction qs with
  | nil => exact List.Forall₂.nil
  | cons q rest ih =>
    by_cases h : q.answer.isNone = true
    · simp only [setFirstUnansweredDirect, h, if_true]
      exact List.Forall₂.cons (fun _ => rfl) (keepsAnswered_refl rest)
    · simp only [setFirstUnansweredDirect, h, if_false]
      exact List.Forall₂.cons (fun h => h) ih

theorem fallbackAssignById_keeps (msg : String) (qs : List Question) :
    keepsAnswered qs (fallbackAssignById msg qs) := by
  unfold fallbackAssignById
  cases qs.filter (fun q => q.answer.isNone) with
  | nil => exact keepsAnswered_refl qs
  | cons u rest =>
    by_cases hp : isPrimId u.id = true
    · simp only [hp, if_true]
      exact setAnswerById_keeps _ _ _
    · simp only [hp, if_false]
      exact setFirstUnansweredDirect_keeps _ _

theorem applyEntry_keeps (qs : List Question) (e : Json) :
    keepsAnswered qs (applyEntry qs e).1 := by
  unfold applyEntry
  split
  · split
    · exact setAnswerById_keeps _ _ _
    · exact keepsAnswered_refl qs
  · exact keepsAnswered_refl qs

theorem applyMapped_keeps (es : List Json) :
    ∀ qs : List Question, keepsAnswered qs (applyMapped qs es).1 := by
  induction es with
  | nil => exact keepsAnswered_refl
  | cons e es ih =>
    intro qs
    simp only [applyMapped]
    by_cases hn : isNullJson e = true
    · rw [if_pos hn]
      exact keepsAnswered_refl qs
    · rw [if_neg hn]
      exact keepsAnswered_trans (applyEntry_keeps qs e) (ih (applyEntry qs e).1)

/-- The mapper never clears an answer, whatever the oracle did. -/
theorem mapAnswer_keeps (s : Session) (msg : String) (o : OracleCall) :
    keepsAnswered s.questions (mapAnswerToQuestions s msg o).questions := by
  unfold mapAnswerToQuestions
  split
  · exact setFirstUnansweredDirect_keeps _ _
  · split
    · exact setFirstUnansweredDirect_keeps _ _
    · split
      · exact keepsAnswered_trans (applyMapped_keeps _ _)
          (setFirstUnansweredDirect_keeps _ _)
      · split
        · exact keepsAnswered_trans (applyMapped_keeps _ _)
            (fallbackAssignById_keeps _ _)
        · exact applyMapped_keeps _ _

theorem keepsAnswered_count {qs qs' : List Question}
    (h : keepsAnswered qs qs') : countAnswered qs ≤ countAnswered qs' := by
  induction h with
  | nil => exact le_refl 0
  | @cons a b l1 l2 hab _ ih =>
    simp only [countAnswered, List.countP_cons] at ih ⊢
    by_cases ha : a.answer.isSome = true
    · simp only [ha, hab ha, if_true]
      omega
    · have h0 : (if a.answer.isSome = true then 1 else 0) = 0 := if_neg ha
      rw [h0]
      have hb : (if b.answer.isSome = true then 1 else 0) ≤ 1 := by split <;> omega
      omega

theorem keepsAnswered_get {qs qs' : List Question} (h : keepsAnswered qs qs')
    {i : Nat} {q : Question} (hq : qs[i]? = some q)
    (hans : q.answer.isSome = true) :
    ∃ q', qs'[i]? = some q' ∧ q'.answer.isSome = true := by
  induction h generalizing i with
  | nil => simp at hq
  | @cons a b l1 l2 hab tail ih =>
    cases i with
    | zero =>
      simp only [List.getElem?_cons_zero, Option.some_inj] at hq
      subst hq
      exact ⟨b, by simp, hab hans⟩
    | succ j =>
      simp only [List.getElem?_cons_succ] at hq ⊢
      exact ih hq

/-! ### Lemmas: zero applied answers and frame conditions -/

theorem setAnswerById_not_found (qid : Option Json) (v : Json) :
    ∀ qs : List Question,
      (setAnswerById qid v qs).2 = false → (setAnswerById qid v qs).1 = qs := by
  intro qs
  induction qs with
  | nil => intro _; rfl
  | cons q rest ih =>
    cases h : jsEq q.id qid with
    | true =>
      intro hb
      simp [setAnswerById, h] at hb
    | false =>
      intro hb
      simp only [setAnswerById, h, Bool.false_eq_true, if_false] at hb ⊢
      simp only [List.cons.injEq, true_and]
      exact ih hb

theorem applyEntry_not_applied (qs : List Question) (e : Json) :
    (applyEntry qs e).2 = false → (applyEntry qs e).1 = qs := by
  unfold applyEntry
  split
  · split
    · exact setAnswerById_not_found _ _ _
    · intro _; rfl
  · intro _; rfl

theorem applyMapped_zero (es : List Json) :
    ∀ qs : List Question,
      (applyMapped qs es).2.1 = 0 → (applyMapped qs es).1 = qs := by
  induction es with
  | nil => intro qs _; rfl
  | cons e es ih =>
    intro qs h
    simp only [applyMapped] at h ⊢
    by_cases hn : isNullJson e = true
    · rw [if_pos hn]
    · rw [if_neg hn] at h ⊢
      cases hb : (applyEntry qs e).2 with
      | true => simp [hb] at h
      | false =>
        have he := applyEntry_not_applied qs e hb
        simp only [hb, Bool.false_eq_true, if_false, Nat.add_zero] at h
        rw [he] at h ⊢
        exact ih qs h

theorem setFirstUnansweredDirect_all_answered (msg : String) :
    ∀ qs : List Question, firstUnansweredIdx qs = none →
      setFirstUnansweredDirect msg qs = qs := by
  intro qs
  induction qs with
  | nil => intro _; rfl
  | cons q rest ih =>
    intro h
    simp only [firstUnansweredIdx] at h
    cases hq : q.answer.isNone with
    | true => simp [hq] at h
    | false =>
      rw [hq] at h
      simp only [Bool.false_eq_true, if_false] at h
      simp only [setFirstUnansweredDirect, hq, Bool.false_eq_true, if_false,
        List.cons.injEq, true_and]
      exact ih (Option.map_eq_none'.mp h)

theorem setFirstUnansweredDirect_hit (msg : String) :
    ∀ (qs : List Question) (i : Nat), firstUnansweredIdx qs = some i →
      ∃ q, qs[i]? = some q ∧ q.answer = none ∧
        (setFirstUnansweredDirect msg qs)[i]?
          = some { q with answer := some (.str msg) } := by
  intro qs
  induction qs with
  | nil => intro i h; simp [firstUnansweredIdx] at h
  | cons q rest ih =>
    intro i h
    simp only [firstUnansweredIdx] at h
    cases hq : q.answer.isNone with
    | true =>
      rw [hq] at h
      simp only [if_true, Option.some_inj] at h
      subst h
      refine ⟨q, by simp, Option.isNone_iff_eq_none.mp hq, ?_⟩
      simp [setFirstUnansweredDirect, hq]
    | false =>
      rw [hq] at h
      simp only [Bool.false_eq_true, if_false] at h
      cases hrest : firstUnansweredIdx rest with
      | none => rw [hrest] at h; simp at h
      | some j =>
        rw [hrest] at h
        simp only [Option.map_some', Option.some_inj] at h
        subst h
        obtain ⟨q0, hg, hn, hs⟩ := ih j hrest
        refine ⟨q0, by simpa using hg, hn, ?_⟩
        simp only [setFirstUnansweredDirect, hq, Bool.false_eq_true, if_false]
        simpa using hs

theorem setFirstUnansweredDirect_frame (msg : String) :
    ∀ (qs : List Question) (i : Nat) (q : Question), qs[i]? = some q →
      firstUnansweredIdx qs ≠ some i →
      (setFirstUnansweredDirect msg qs)[i]? = some q := by
  intro qs
  induction qs with
  | nil => intro i q h _; simp at h
  | cons q0 rest ih =>
    intro i q hq hne
    simp only [firstUnansweredIdx] at hne
    cases h0 : q0.answer.isNone with
    | true =>
      rw [h0] at hne
      simp only [if_true] at hne
      cases i with
      | zero => exact absurd rfl hne
      | succ j =>
        simp only [List.getElem?_cons_succ] at hq
        simp only [setFirstUnansweredDirect, h0, if_true,
          List.getElem?_cons_succ]
        exact hq
    | false =>
      rw [h0] at hne
      simp only [Bool.false_eq_true, if_false] at hne
      simp only [setFirstUnansweredDirect, h0, Bool.false_eq_true, if_false]
      cases i with
      | zero =>
        simp only [List.getElem?_cons_zero, Option.some_inj] at hq ⊢
        exact hq
      | succ j =>
        simp only [List.getElem?_cons_succ] at hq ⊢
        refine ih j q hq (fun hj => hne ?_)
        rw [hj]
        rfl

theorem setAnswerById_frame (qid : Option Json) (v : Json) :
    ∀ (qs : List Question) (i : Nat) (q : Question), qs[i]? = some q →
      jsEq q.id qid = false → ((setAnswerById qid v qs).1)[i]? = some q := by
  intro qs
  induction qs with
  | nil => intro i q h _; simp at h
  | cons q0 rest ih =>
    intro i q hq hne
    cases h0 : jsEq q0.id qid with
    | true =>
      simp only [setAnswerById, h0, if_true]
      cases i with
      | zero =>
        simp only [List.getElem?_cons_zero, Option.some_inj] at hq
        rw [← hq] at hne
        rw [h0] at hne
        cases hne
      | succ j =>
        simp only [List.getElem?_cons_succ] at hq ⊢
        exact hq
    | false =>
      simp only [setAnswerById, h0, Bool.false_eq_true, if_false]
      cases i with
      | zero =>
        simp only [List.getElem?_cons_zero, Option.some_inj] at hq ⊢
        exact hq
      | succ j =>
        simp only [List.getElem?_cons_succ] at hq ⊢
        exact ih j q hq hne

theorem applyMapped_frame (es : List Json) :
    ∀ (qs : List Question) (i : Nat) (q : Question), qs[i]? = some q →
      (∀ e ∈ es, entryGate e = true → jsEq q.id (jsGet e "questionId") = false) →
      ((applyMapped qs es).1)[i]? = some q := by
  induction es with
  | nil => intro qs i q hq _; exact hq
  | cons e es ih =>
    intro qs i q hq hne
    simp only [applyMapped]
    by_cases hnl : isNullJson e = true
    · rw [if_pos hnl]
      exact hq
    · rw [if_neg hnl]
      have h1 : ((applyEntry qs e).1)[i]? = some q := by
        unfold applyEntry
        split
        · rename_i hg
          split
          · exact setAnswerById_frame _ _ qs i q hq (hne e (by simp) hg)
          · exact hq
        · exact hq
      exact ih (applyEntry qs e).1 i q h1
        (fun e' he' hg => hne e' (by simp [he']) hg)

/-- A mapping array with no `null` element runs the loop to completion. -/
theorem applyMapped_nocrash (es : List Json) :
    ∀ qs : List Question, es.all (fun e => !isNullJson e) = true →
      (applyMapped qs es).2.2 = false := by
  induction es with
  | nil => intro qs _; rfl
  | cons e es ih =>
    intro qs h
    simp only [List.all_cons, Bool.and_eq_true, Bool.not_eq_true'] at h
    simp only [applyMapped]
    rw [if_neg (by simp [h.1])]
    exact ih (applyEntry qs e).1 h.2

/-! ### Lemmas: the by-id fallback equals the direct fallback on
distinct-id sessions -/

theorem idsDistinct_cons {q : Question} {rest : List Question}
    (h : idsDistinct (q :: rest) = true) :
    (∀ y ∈ rest, jsEq q.id y.id = false) ∧ idsDistinct rest = true := by
  simp only [idsDistinct, List.map_cons, idsDistinctJ, Bool.and_eq_true] at h
  refine ⟨fun y hy => ?_, h.2⟩
  have h1 := h.1
  rw [List.all_eq_true] at h1
  have h2 := h1 y.id (List.mem_map_of_mem (fun q => q.id) hy)
  simpa using h2

theorem filter_unanswered_nil (qs : List Question)
    (h : qs.filter (fun q => q.answer.isNone) = []) :
    firstUnansweredIdx qs = none := by
  induction qs with
  | nil => rfl
  | cons q rest ih =>
    simp only [List.filter_cons] at h
    cases hq : q.answer.isNone with
    | true => simp [hq] at h
    | false =>
      rw [hq] at h
      simp only [Bool.false_eq_true, if_false] at h
      simp only [firstUnansweredIdx, hq, Bool.false_eq_true, if_false, ih h]
      rfl

theorem fallback_eq_direct (msg : String) :
    ∀ qs : List Question, idsDistinct qs = true →
      fallbackAssignById msg qs = setFirstUnansweredDirect msg qs := by
  intro qs
  induction qs with
  | nil => intro _; rfl
  | cons q rest ih =>
    intro hd
    obtain ⟨hall, htail⟩ := idsDistinct_cons hd
    cases hq : q.answer.isNone with
    | true =>
      -- the head is the first unanswered question
      cases hp : isPrimId q.id with
      | true =>
        simp [fallbackAssignById, List.filter_cons, hq, hp, setAnswerById,
          jsEq_refl_prim q.id hp, setFirstUnansweredDirect]
      | false =>
        simp [fallbackAssignById, List.filter_cons, hq, hp]
    | false =>
      -- head answered: the first unanswered (if any) lives in the tail
      cases hrest : rest.filter (fun q => q.answer.isNone) with
      | nil =>
        have hnone : firstUnansweredIdx (q :: rest) = none := by
          simp only [firstUnansweredIdx, hq, Bool.false_eq_true, if_false,
            filter_unanswered_nil rest hrest]
          rfl
        simp only [fallbackAssignById, List.filter_cons, hq, Bool.false_eq_true,
          if_false, hrest]
        rw [setFirstUnansweredDirect_all_answered msg (q :: rest) hnone]
      | cons u us =>
        have hu : u ∈ rest := by
          have hsub := hrest ▸ List.filter_sublist (l := rest)
          exact (List.Sublist.subset hsub) (by simp)
        have hne : jsEq q.id u.id = false := hall u hu
        have htl := ih htail
        simp only [fallbackAssignById, List.filter_cons, hq, Bool.false_eq_true,
          if_false, hrest] at htl ⊢
        cases hp : isPrimId u.id with
        | true =>
          rw [hp] at htl
          have htl' : (setAnswerById u.id (Json.str msg) rest).1
              = setFirstUnansweredDirect msg rest := htl
          have hL : (setAnswerById u.id (Json.str msg) (q :: rest)).1
              = q :: (setAnswerById u.id (Json.str msg) rest).1 := by
            simp [setAnswerById, hne]
          have hR : setFirstUnansweredDirect msg (q :: rest)
              = q :: setFirstUnansweredDirect msg rest := by
            simp [setFirstUnansweredDirect, hq]
          show (setAnswerById u.id (Json.str msg) (q :: rest)).1
              = setFirstUnansweredDirect msg (q :: rest)
          rw [hL, htl', hR]
        | false =>
          show setFirstUnansweredDirect msg (q :: rest)
              = setFirstUnansweredDirect msg (q :: rest)
          rfl

/-- When zero answers were applied and the phase is Interview, the mapper
reduces to writing the raw message at the first unanswered question. -/
theorem mapAnswer_zero (s : Session) (msg : String) (o : OracleCall)
    (hph : s.phase = .interview) (hids : idsDistinct s.questions = true)
    (h0 : appliedCount s.questions o = 0) :
    (mapAnswerToQuestions s msg o).questions
      = setFirstUnansweredDirect msg s.questions := by
  unfold mapAnswerToQuestions
  cases o with
  | error u => rfl
  | ok text =>
    cases hdec : decodeAnswers text with
    | error u => simp only [hdec]
    | ok entries =>
      simp only [hdec]
      have hcnt : (applyMapped s.questions entries).2.1 = 0 := by
        simpa [appliedCount, hdec] using h0
      have hq1 : (applyMapped s.questions entries).1 = s.questions :=
        applyMapped_zero entries s.questions hcnt
      by_cases hcr : (applyMapped s.questions entries).2.2 = true
      · rw [if_pos hcr]
        show setFirstUnansweredDirect msg (applyMapped s.questions entries).1
            = setFirstUnansweredDirect msg s.questions
        rw [hq1]
      · rw [if_neg hcr, if_pos ⟨hcnt, hph⟩]
        show fallbackAssignById msg (applyMapped s.questions entries).1
            = setFirstUnansweredDirect msg s.questions
        rw [hq1]
        exact fallback_eq_direct msg s.questions hids

/-- A duplicate-id interview session, the shape the planner produces from
an oracle response that repeats an id (see `c1_counterexample`): two
questions both carrying id `q1`, the first already answered. -/
def dupIdSession : Session :=
  { initSession with
    phase := .interview
    questions :=
      [ { id := some (.str "q1"), text := some (.str "t1"),
          category := some (.str "c1"), answer := some (.str "early") }
      , { id := some (.str "q1"), text := some (.str "t2"),
          category := some (.str "c2"), answer := none } ] }

/-- An oracle success whose mapping decodes to the empty array — zero
entries applied. -/
def emptyMappingText : String := "\x7b\"answers\":[]\x7d"

/-- **C3 counterexample.**  On a duplicate-id interview session the claim
fails: with zero applied answers the fallback looks the first unanswered
question up again by id (`findIndex(q => q.id === unanswered[0].id)`,
agent.ts line 386), which matches the first id-equal question — here the
already-answered index 0.  The raw message overwrites that answered
question, and the first unanswered question (index 1) stays `null`. -/
theorem c3_counterexample :
    dupIdSession.phase = .interview
    ∧ firstUnansweredIdx dupIdSession.questions = some 1
    ∧ appliedCount dupIdSession.questions (.ok emptyMappingText) = 0
    ∧ (mapAnswerToQuestions dupIdSession "the raw message"
          (.ok emptyMappingText)).questions.map (fun q => q.answer)
        = [some (.str "the raw message"), none] :=
  ⟨rfl, rfl, rfl, rfl⟩

/-- **C3 (amended).** While phase = Interview with at least one unanswered
question and pairwise-distinct question ids (the §3 data-model invariant;
without it the claim fails, see the counterexample), whenever applying the
oracle's mapping sets zero answers — the mapping applied no entries,
parsed to an empty array, failed to decode, threw mid-loop before any
write, or the oracle call threw (`appliedCount … = 0` covers exactly
these) — the first currently unanswered question's answer becomes the
entire raw user message. -/
theorem c3_interview_fallback (s : Session) (msg : String) (o : OracleCall)
    (hph : s.phase = .interview) (hids : idsDistinct s.questions = true)
    (i : Nat) (hfst : firstUnansweredIdx s.questions = some i)
    (h0 : appliedCount s.questions o = 0) :
    ∃ q, s.questions[i]? = some q ∧ q.answer = none ∧
      (mapAnswerToQuestions s msg o).questions[i]?
        = some { q with answer := some (.str msg) } := by
  rw [mapAnswer_zero s msg o hph hids h0]
  exact setFirstUnansweredDirect_hit msg s.questions i hfst

/-- A two-question interview session with nothing answered yet. -/
def interviewPair : Session :=
  { initSession with
    phase := .interview
    questions :=
      [ { id := some (.str "q1"), text := some (.str "t1"),
          category := some (.str "c1"), answer := none }
      , { id := some (.str "q2"), text := some (.str "t2"),
          category := some (.str "c2"), answer := none } ] }

/-- Witness for C3 at a concrete session: the oracle call throws and the
raw message lands on the first unanswered question. -/
theorem c3_witness :
    ∃ q, interviewPair.questions[0]? = some q ∧ q.answer = none ∧
      (mapAnswerToQuestions interviewPair "Postgres please"
          (.error ())).questions[0]?
        = some { q with answer := some (.str "Postgres please") } :=
  c3_interview_fallback interviewPair "Postgres please" (.error ()) rfl rfl 0
    rfl rfl

/-- **C4 counterexample.**  On a duplicate-id interview session the frame
fails: question 0 is named by no entry at all (the decoded mapping is
empty) and is not the first unanswered question (that is index 1), yet its
record changes — the zero-applied fallback's by-id lookup rewrites its
answer. -/
theorem c4_counterexample :
    decodeAnswers emptyMappingText = .ok []
    ∧ firstUnansweredIdx dupIdSession.questions ≠ some 0
    ∧ dupIdSession.questions.map (fun q => q.answer)
        = [some (.str "early"), none]
    ∧ (mapAnswerToQuestions dupIdSession "extra note"
          (.ok emptyMappingText)).questions.map (fun q => q.answer)
        = [some (.str "extra note"), none] := by
  refine ⟨rfl, ?_, rfl, rfl⟩
  intro h
  have : (1 : Nat) = 0 := by
    have h1 : firstUnansweredIdx dupIdSession.questions = some 1 := rfl
    rw [h1] at h
    exact Option.some_inj.mp h
  exact absurd this (by decide)

/-- **C4 (amended).**  Frame of the answer mapper.  First conjunct: for
every oracle outcome (success or throw), `id`, `text`, `category` and the
question order are unchanged.  Second conjunct: on distinct-id sessions
(the §3 invariant; the counterexample shows it is needed), for every
decoded mapping with no `null` entry (a `null` entry throws mid-loop and
reroutes to the catch fallback, which may write a question later than the
original first unanswered one), a question whose id is not named by any
gate-passing entry keeps its record, except the first-unanswered question
when the zero-applied Interview fallback fires. -/
theorem c4_frame (s : Session) (msg : String) :
    (∀ o : OracleCall,
      ((mapAnswerToQuestions s msg o).questions).map stripAnswer
        = s.questions.map stripAnswer)
    ∧ (idsDistinct s.questions = true →
       ∀ text entries, decodeAnswers text = .ok entries →
       entries.all (fun e => !isNullJson e) = true →
       ∀ i q, s.questions[i]? = some q →
         (∀ e ∈ entries, entryGate e = true →
            jsEq q.id (jsGet e "questionId") = false) →
         (firstUnansweredIdx s.questions ≠ some i
            ∨ ¬((applyMapped s.questions entries).2.1 = 0
                 ∧ s.phase = .interview)) →
         (mapAnswerToQuestions s msg (.ok text)).questions[i]? = some q) := by
  constructor
  · exact fun o => mapAnswer_strip s msg o
  · intro hids text entries hdec hnn i q hq hne hnotfb
    unfold mapAnswerToQuestions
    simp only [hdec]
    have hnc : (applyMapped s.questions entries).2.2 = false :=
      applyMapped_nocrash entries s.questions hnn
    rw [if_neg (by simp [hnc])]
    by_cases hc : (applyMapped s.questions entries).2.1 = 0 ∧ s.phase = .interview
    · rw [if_pos hc]
      rcases hnotfb with hnf | hnf
      · show (fallbackAssignById msg (applyMapped s.questions entries).1)[i]?
            = some q
        rw [applyMapped_zero entries s.questions hc.1]
        rw [fallback_eq_direct msg s.questions hids]
        exact setFirstUnansweredDirect_frame msg s.questions i q hq hnf
      · exact absurd hc hnf
    · rw [if_neg hc]
      show ((applyMapped s.questions entries).1)[i]? = some q
      exact applyMapped_frame entries s.questions i q hq hne

/-- Witness for C4: an empty decoded mapping in the interview session
leaves the second question untouched (only the first, the fallback
target, may change). -/
theorem c4_witness :
    (mapAnswerToQuestions interviewPair "hello" (.ok "nojson")).questions[1]?
      = some { id := some (.str "q2"), text := some (.str "t2"),
               category := some (.str "c2"), answer := none } :=
  (c4_frame interviewPair "hello").2 rfl "nojson" [] rfl rfl 1
    { id := some (.str "q2"), text := some (.str "t2"),
      category := some (.str "c2"), answer := none }
    rfl (fun e he => absurd he (List.not_mem_nil e))
    (Or.inl (by decide))

/-- The C9 scenario: interview phase, first question already answered. -/
def c9Session : Session :=
  { initSession with
    phase := .interview
    questions :=
      [ { id := some (.str "q1"), text := some (.str "t1"),
          category := some (.str "c1"), answer := some (.str "old") }
      , { id := some (.str "q2"), text := some (.str "t2"),
          category := some (.str "c2"), answer := none } ] }

/-- The C9 oracle output: a confident mapping naming the already-answered
question `q1`. -/
def c9MappingText : String :=
  "\x7b\"answers\":[\x7b\"questionId\":\"q1\",\"answer\":\"Postgres\",\"confidence\":0.9\x7d]\x7d"

/-- **C9.** The application loop matches applied entries against the whole
question set: in Interview phase, a confidence-0.9 mapping naming the
already-answered `q1` (which is not in the unanswered candidate subset)
overwrites `q1`'s existing answer. -/
theorem c9_overwrites_answered :
    c9Session.phase = .interview
    ∧ c9Session.questions.map (fun q => q.answer)
        = [some (.str "old"), none]
    ∧ (mapAnswerToQuestions c9Session "use Postgres"
          (.ok c9MappingText)).questions.map (fun q => q.answer)
        = [some (.str "Postgres"), none] := by
  refine ⟨rfl, rfl, ?_⟩
  rfl

/-! ### Structural lemmas about the handlers -/

/-- The mapper touches only `questions`. -/
theorem mapAnswer_misc (s : Session) (msg : String) (o : OracleCall) :
    (mapAnswerToQuestions s msg o).phase = s.phase
    ∧ (mapAnswerToQuestions s msg o).intent = s.intent
    ∧ (mapAnswerToQuestions s msg o).extraNotes = s.extraNotes
    ∧ (mapAnswerToQuestions s msg o).finalDoc = s.finalDoc
    ∧ (mapAnswerToQuestions s msg o).awaitingConfirmation
        = s.awaitingConfirmation := by
  unfold mapAnswerToQuestions
  split
  · exact ⟨rfl, rfl, rfl, rfl, rfl⟩
  · split
    · exact ⟨rfl, rfl, rfl, rfl, rfl⟩
    · split
      · exact ⟨rfl, rfl, rfl, rfl, rfl⟩
      · split
        · exact ⟨rfl, rfl, rfl, rfl, rfl⟩
        · exact ⟨rfl, rfl, rfl, rfl, rfl⟩

/-- The synthesizer never touches `questions`, `extraNotes`, `intent` or
`awaitingConfirmation`, and its resulting phase is the input phase (prompt
crash) or Synthesis. -/
theorem synthesizer_misc (s : Session) (o : OracleCall) :
    (runSynthesizer s o).session.questions = s.questions
    ∧ (runSynthesizer s o).session.extraNotes = s.extraNotes
    ∧ (runSynthesizer s o).session.intent = s.intent
    ∧ (runSynthesizer s o).session.awaitingConfirmation
        = s.awaitingConfirmation
    ∧ ((runSynthesizer s o).session.phase = s.phase
        ∨ (runSynthesizer s o).session.phase = Phase.synthesis) := by
  unfold runSynthesizer
  split
  · exact ⟨rfl, rfl, rfl, rfl, Or.inl rfl⟩
  · split
    · exact ⟨rfl, rfl, rfl, rfl, Or.inr rfl⟩
    · exact ⟨rfl, rfl, rfl, rfl, Or.inr rfl⟩

/-- The planner touches only `questions` and `phase`; the phase moves to
Interview or stays. -/
theorem planner_misc (s : Session) (o : OracleCall) :
    (runQuestionPlanner s o).session.extraNotes = s.extraNotes
    ∧ (runQuestionPlanner s o).session.intent = s.intent
    ∧ (runQuestionPlanner s o).session.finalDoc = s.finalDoc
    ∧ (runQuestionPlanner s o).session.awaitingConfirmation
        = s.awaitingConfirmation
    ∧ ((runQuestionPlanner s o).session.phase = s.phase
        ∨ (runQuestionPlanner s o).session.phase = Phase.interview)
    ∧ ((runQuestionPlanner s o).session.questions = s.questions
        ∨ (runQuestionPlanner s o).session.phase = Phase.interview) := by
  unfold runQuestionPlanner plannerCore
  split
  · exact ⟨rfl, rfl, rfl, rfl, Or.inl rfl, Or.inl rfl⟩
  · split
    · exact ⟨rfl, rfl, rfl, rfl, Or.inl rfl, Or.inl rfl⟩
    · split
      · exact ⟨rfl, rfl, rfl, rfl, Or.inl rfl, Or.inl rfl⟩
      · split
        · exact ⟨rfl, rfl, rfl, rfl, Or.inl rfl, Or.inl rfl⟩
        · split
          · exact ⟨rfl, rfl, rfl, rfl, Or.inl rfl, Or.inl rfl⟩
          · exact ⟨rfl, rfl, rfl, rfl, Or.inr rfl, Or.inr rfl⟩

/-- The interview turn: its questions are the input questions or the
mapper's output on them; its phase is the input phase or Confirmation;
`extraNotes`, `intent`, `finalDoc` are untouched; `awaitingConfirmation`
is set only together with phase = Confirmation. -/
theorem interviewTurn_misc (s : Session) (m : Option String) (o : OracleCall) :
    (runInterviewTurn s m o).1.extraNotes = s.extraNotes
    ∧ (runInterviewTurn s m o).1.intent = s.intent
    ∧ (runInterviewTurn s m o).1.finalDoc = s.finalDoc
    ∧ ((runInterviewTurn s m o).1.questions = s.questions
        ∨ ∃ msg, m = some msg
            ∧ (runInterviewTurn s m o).1.questions
                = (mapAnswerToQuestions s msg o).questions)
    ∧ ((runInterviewTurn s m o).1.phase = Phase.confirmation
          ∧ (runInterviewTurn s m o).1.awaitingConfirmation = true
        ∨ (runInterviewTurn s m o).1.phase = s.phase
          ∧ (runInterviewTurn s m o).1.awaitingConfirmation
              = s.awaitingConfirmation) := by
  cases m with
  | some msg =>
    simp only [runInterviewTurn]
    split
    · exact ⟨rfl, rfl, rfl, Or.inl rfl, Or.inl ⟨rfl, rfl⟩⟩
    · split
      · exact ⟨(mapAnswer_misc s msg o).2.2.1, (mapAnswer_misc s msg o).2.1,
          (mapAnswer_misc s msg o).2.2.2.1, Or.inr ⟨msg, rfl, rfl⟩,
          Or.inl ⟨rfl, rfl⟩⟩
      · exact ⟨(mapAnswer_misc s msg o).2.2.1, (mapAnswer_misc s msg o).2.1,
          (mapAnswer_misc s msg o).2.2.2.1, Or.inr ⟨msg, rfl, rfl⟩,
          Or.inr ⟨(mapAnswer_misc s msg o).1,
            (mapAnswer_misc s msg o).2.2.2.2⟩⟩
  | none =>
    simp only [runInterviewTurn]
    split
    · exact ⟨rfl, rfl, rfl, Or.inl rfl, Or.inl ⟨rfl, rfl⟩⟩
    · exact ⟨rfl, rfl, rfl, Or.inl rfl, Or.inr ⟨rfl, rfl⟩⟩

/-! ### Invariants of the dispatcher -/

/-- `awaitingConfirmation` is set only in phase Confirmation. -/
def Inv1 (s : Session) : Prop :=
  s.awaitingConfirmation = true → s.phase = Phase.confirmation

/-- Before planning has completed, no questions exist. -/
def Inv2 (s : Session) : Prop :=
  s.phase = Phase.intent ∨ s.phase = Phase.question_planning →
    s.questions = []

theorem inv1_of (s : Session)
    (h : s.awaitingConfirmation = false ∨ s.phase = Phase.confirmation) :
    Inv1 s := by
  intro ha
  rcases h with h | h
  · rw [ha] at h; cases h
  · exact h

theorem inv1_false {s : Session} (h : Inv1 s)
    (hp : ¬ s.phase = Phase.confirmation) : s.awaitingConfirmation = false := by
  cases ha : s.awaitingConfirmation
  · rfl
  · exact absurd (h ha) hp

theorem intentChain_inv1 (s1 : Session) (e : OracleEnv)
    (ha : s1.awaitingConfirmation = false) :
    Inv1 (intentChain s1 e).session := by
  unfold intentChain
  split
  · exact inv1_of _ (Or.inl ((planner_misc s1 e.plannerO).2.2.2.1.trans ha))
  · rcases (interviewTurn_misc (runQuestionPlanner s1 e.plannerO).session none
        e.mapperO).2.2.2.2 with ⟨hc, _⟩ | ⟨_, haw⟩
    · exact inv1_of _ (Or.inr hc)
    · exact inv1_of _ (Or.inl
        (haw.trans ((planner_misc s1 e.plannerO).2.2.2.1.trans ha)))

theorem step_inv1 (s : Session) (msg : String) (e : OracleEnv) (h : Inv1 s) :
    Inv1 (step s msg e).1 := by
  cases hp : s.phase with
  | intent =>
    have haw : s.awaitingConfirmation = false :=
      inv1_false h (by rw [hp]; intro hc; cases hc)
    simp only [step, hp]
    unfold runIntentAgent
    split
    · exact inv1_of _ (Or.inl haw)
    · split
      · exact inv1_of _ (Or.inl haw)
      · exact intentChain_inv1 _ e haw
  | question_planning =>
    have haw := inv1_false h (by rw [hp]; intro hc; cases hc)
    simp only [step, hp]
    split
    · exact inv1_of _ (Or.inl ((planner_misc s e.plannerO).2.2.2.1.trans haw))
    · rcases (interviewTurn_misc (runQuestionPlanner s e.plannerO).session none
          e.mapperO).2.2.2.2 with ⟨hc, _⟩ | ⟨_, hA⟩
      · exact inv1_of _ (Or.inr hc)
      · exact inv1_of _ (Or.inl
          (hA.trans ((planner_misc s e.plannerO).2.2.2.1.trans haw)))
  | interview =>
    have haw := inv1_false h (by rw [hp]; intro hc; cases hc)
    simp only [step, hp]
    rcases (interviewTurn_misc s (some msg) e.mapperO).2.2.2.2 with
      ⟨hc, _⟩ | ⟨_, hA⟩
    · exact inv1_of _ (Or.inr hc)
    · exact inv1_of _ (Or.inl (hA.trans haw))
  | confirmation =>
    simp only [step, hp]
    unfold handleConfirmation
    split
    · exact inv1_of _ (Or.inl ((synthesizer_misc _ e.synthO).2.2.2.1))
    · exact inv1_of _ (Or.inr ((mapAnswer_misc s msg e.mapperO).1.trans hp))
  | synthesis =>
    simp only [step, hp]
    exact inv1_of _ (Or.inr rfl)

theorem interviewTurn_phase_cases (s : Session) (m : Option String)
    (o : OracleCall) :
    (runInterviewTurn s m o).1.phase = Phase.confirmation
    ∨ (runInterviewTurn s m o).1.phase = s.phase := by
  rcases (interviewTurn_misc s m o).2.2.2.2 with ⟨hc, _⟩ | ⟨hph, _⟩
  · exact Or.inl hc
  · exact Or.inr hph

theorem intentChain_inv2 (s1 : Session) (e : OracleEnv)
    (hq : s1.questions = []) : Inv2 (intentChain s1 e).session := by
  unfold intentChain
  split
  · intro hpp
    rcases (planner_misc s1 e.plannerO).2.2.2.2.2 with hqs | hphase
    · exact hqs.trans hq
    · rcases hpp with hpp | hpp <;> rw [hphase] at hpp <;> cases hpp
  · intro hpp
    rcases (interviewTurn_misc (runQuestionPlanner s1 e.plannerO).session none
        e.mapperO).2.2.2.1 with hqs | ⟨m, hm, _⟩
    · rcases interviewTurn_phase_cases (runQuestionPlanner s1 e.plannerO).session
          none e.mapperO with hc | hsame
      · rcases hpp with hpp | hpp <;> rw [hc] at hpp <;> cases hpp
      · rcases (planner_misc s1 e.plannerO).2.2.2.2.2 with hq2 | hphase
        · exact hqs.trans (hq2.trans hq)
        · rw [hsame, hphase] at hpp
          rcases hpp with hpp | hpp <;> cases hpp
    · cases hm

theorem step_inv2 (s : Session) (msg : String) (e : OracleEnv) (h : Inv2 s) :
    Inv2 (step s msg e).1 := by
  cases hp : s.phase with
  | intent =>
    have hq : s.questions = [] := h (Or.inl hp)
    simp only [step, hp]
    unfold runIntentAgent
    split
    · intro _; exact hq
    · split
      · intro _; exact hq
      · exact intentChain_inv2 _ e hq
  | question_planning =>
    have hq := h (Or.inr hp)
    simp only [step, hp]
    split
    · intro hpp
      rcases (planner_misc s e.plannerO).2.2.2.2.2 with hqs | hphase
      · exact hqs.trans hq
      · rcases hpp with hpp | hpp <;> rw [hphase] at hpp <;> cases hpp
    · intro hpp
      rcases (interviewTurn_misc (runQuestionPlanner s e.plannerO).session none
          e.mapperO).2.2.2.1 with hqs | ⟨m, hm, _⟩
      · rcases interviewTurn_phase_cases (runQuestionPlanner s e.plannerO).session
            none e.mapperO with hc | hsame
        · rcases hpp with hpp | hpp <;> rw [hc] at hpp <;> cases hpp
        · rcases (planner_misc s e.plannerO).2.2.2.2.2 with hq2 | hphase
          · exact hqs.trans (hq2.trans hq)
          · rw [hsame, hphase] at hpp
            rcases hpp with hpp | hpp <;> cases hpp
      · cases hm
  | interview =>
    simp only [step, hp]
    intro hpp
    rcases interviewTurn_phase_cases s (some msg) e.mapperO with hc | hsame
    · rcases hpp with hpp | hpp <;> rw [hc] at hpp <;> cases hpp
    · rw [hsame, hp] at hpp
      rcases hpp with hpp | hpp <;> cases hpp
  | confirmation =>
    simp only [step, hp]
    unfold handleConfirmation
    split
    · intro hpp
      rcases (synthesizer_misc _ e.synthO).2.2.2.2 with hphase | hphase <;>
        rw [hphase] at hpp <;> rcases hpp with hpp | hpp <;>
        exact Phase.noConfusion hpp
    · intro hpp
      have hcf : (requestConfirmation
          (mapAnswerToQuestions s msg e.mapperO)).1.phase = Phase.confirmation :=
        (mapAnswer_misc s msg e.mapperO).1.trans hp
      rcases hpp with hpp | hpp <;> rw [hcf] at hpp <;> cases hpp
  | synthesis =>
    simp only [step, hp]
    intro hpp
    rcases hpp with hpp | hpp <;> exact Phase.noConfusion hpp

theorem intentChain_extraNotes (s1 : Session) (e : OracleEnv) :
    (intentChain s1 e).session.extraNotes = s1.extraNotes := by
  unfold intentChain
  split
  · exact (planner_misc s1 e.plannerO).1
  · exact ((interviewTurn_misc (runQuestionPlanner s1 e.plannerO).session none
      e.mapperO).1).trans (planner_misc s1 e.plannerO).1

theorem step_extraNotes (s : Session) (msg : String) (e : OracleEnv) :
    (step s msg e).1.extraNotes = s.extraNotes := by
  cases hp : s.phase with
  | intent =>
    simp only [step, hp]
    unfold runIntentAgent
    split
    · rfl
    · split
      · rfl
      · exact intentChain_extraNotes _ e
  | question_planning =>
    simp only [step, hp]
    split
    · exact (planner_misc s e.plannerO).1
    · exact ((interviewTurn_misc (runQuestionPlanner s e.plannerO).session none
        e.mapperO).1).trans (planner_misc s e.plannerO).1
  | interview =>
    simp only [step, hp]
    exact (interviewTurn_misc s (some msg) e.mapperO).1
  | confirmation =>
    simp only [step, hp]
    unfold handleConfirmation
    split
    · exact (synthesizer_misc _ e.synthO).2.1
    · exact (mapAnswer_misc s msg e.mapperO).2.2.1
  | synthesis =>
    simp only [step, hp]
    exact (mapAnswer_misc s msg e.mapperO).2.2.1

theorem interviewTurn_answers (s : Session) (m : Option String)
    (o : OracleCall) (i : Nat) (q : Question) (hq : s.questions[i]? = some q)
    (ha : q.answer.isSome = true) :
    ∃ q', (runInterviewTurn s m o).1.questions[i]? = some q'
      ∧ q'.answer.isSome = true := by
  rcases (interviewTurn_misc s m o).2.2.2.1 with hqs | ⟨msg, _, hqs⟩
  · exact ⟨q, by rw [hqs]; exact hq, ha⟩
  · rw [hqs]
    exact keepsAnswered_get (mapAnswer_keeps s msg o) hq ha

theorem step_answers (s : Session) (msg : String) (e : OracleEnv)
    (h2 : Inv2 s) (i : Nat) (q : Question) (hq : s.questions[i]? = some q)
    (ha : q.answer.isSome = true) :
    ∃ q', (step s msg e).1.questions[i]? = some q'
      ∧ q'.answer.isSome = true := by
  cases hp : s.phase with
  | intent => rw [h2 (Or.inl hp)] at hq; simp at hq
  | question_planning => rw [h2 (Or.inr hp)] at hq; simp at hq
  | interview =>
    simp only [step, hp]
    exact interviewTurn_answers s (some msg) e.mapperO i q hq ha
  | confirmation =>
    simp only [step, hp]
    unfold handleConfirmation
    split
    · exact ⟨q, by rw [(synthesizer_misc _ e.synthO).1]; exact hq, ha⟩
    · exact keepsAnswered_get (mapAnswer_keeps s msg e.mapperO) hq ha
  | synthesis =>
    simp only [step, hp]
    exact keepsAnswered_get (mapAnswer_keeps s msg e.mapperO) hq ha

theorem step_interview_count (s : Session) (msg : String) (e : OracleEnv)
    (hph : s.phase = Phase.interview) :
    countAnswered s.questions ≤ countAnswered (step s msg e).1.questions := by
  simp only [step, hph]
  rcases (interviewTurn_misc s (some msg) e.mapperO).2.2.2.1 with
    hqs | ⟨m2, _, hqs⟩
  · rw [hqs]
  · rw [hqs]
    exact keepsAnswered_count (mapAnswer_keeps s m2 e.mapperO)

theorem reachable_inv2 (s : Session) (h : Reachable s) : Inv2 s := by
  induction h with
  | init => intro _; rfl
  | next s0 m0 e0 _ ih => exact step_inv2 s0 m0 e0 ih

theorem reachable_inv1 (s : Session) (h : Reachable s) : Inv1 s := by
  induction h with
  | init => intro ha; cases ha
  | next s0 m0 e0 _ ih => exact step_inv1 s0 m0 e0 ih

/-! ### A concrete execution trace used by the witnesses -/

/-- Oracle responses for the first message: a clean intent object, a
planner response carrying no JSON (forcing the full built-in catalog),
mapper and synthesizer throwing. -/
def traceEnv1 : OracleEnv :=
  ⟨.ok "\x7b\"projectName\":\"Chat\",\"scope\":\"Full Stack\",\"goals\":[\"g1\"]\x7d",
   .ok "no json here", .error (), .error ()⟩

/-- An environment where every oracle call throws. -/
def traceErrEnv : OracleEnv := ⟨.error (), .error (), .error (), .error ()⟩

def traceT1 : Session := (step initSession "I want a chat app" traceEnv1).1
def traceT2 : Session := (step traceT1 "a1" traceErrEnv).1
def traceT3 : Session := (step traceT2 "a2" traceErrEnv).1
def traceT4 : Session := (step traceT3 "a3" traceErrEnv).1
def traceT5 : Session := (step traceT4 "a4" traceErrEnv).1
def traceT6 : Session := (step traceT5 "a5" traceErrEnv).1
def traceT7 : Session := (step traceT6 "a6" traceErrEnv).1
def traceT8 : Session := (step traceT7 "a7" traceErrEnv).1
def traceT9 : Session := (step traceT8 "a8" traceErrEnv).1

theorem traceT2_reachable : Reachable traceT2 :=
  Reachable.next traceT1 "a1" traceErrEnv
    (Reachable.next initSession "I want a chat app" traceEnv1 Reachable.init)

theorem traceT9_reachable : Reachable traceT9 :=
  Reachable.next traceT8 "a8" traceErrEnv
    (Reachable.next traceT7 "a7" traceErrEnv
      (Reachable.next traceT6 "a6" traceErrEnv
        (Reachable.next traceT5 "a5" traceErrEnv
          (Reachable.next traceT4 "a4" traceErrEnv
            (Reachable.next traceT3 "a3" traceErrEnv
              (Reachable.next traceT2 "a2" traceErrEnv traceT2_reachable))))))

/-- The first question of `traceT2` (catalog `q1`, answered "a1"). -/
def traceQ0 : Question :=
  match traceT2.questions with
  | q :: _ => q
  | [] => ⟨none, none, none, none⟩

/-! ### Claims C5, C8, C10, C2, C7 -/

/-- **C5.** First conjunct: across one dispatcher run from any reachable
session, a question that had an answer still has one at the same position
(no non-null → null transition).  Second conjunct: in Interview phase the
count of answered questions never decreases across a run. -/
theorem c5_answers_monotone :
    (∀ s, Reachable s → ∀ (msg : String) (e : OracleEnv) (i : Nat)
        (q : Question), s.questions[i]? = some q → q.answer.isSome = true →
        ∃ q', (step s msg e).1.questions[i]? = some q'
          ∧ q'.answer.isSome = true)
    ∧ (∀ (s : Session) (msg : String) (e : OracleEnv),
        s.phase = Phase.interview →
        countAnswered s.questions
          ≤ countAnswered (step s msg e).1.questions) := by
  constructor
  · intro s hs msg e i q hq ha
    exact step_answers s msg e (reachable_inv2 s hs) i q hq ha
  · exact step_interview_count

/-- Witness for C5 on the trace: after the first answer, another run keeps
question 0 answered, and the answered count does not decrease. -/
theorem c5_witness :
    (∃ q', (step traceT2 "more" traceErrEnv).1.questions[0]? = some q'
        ∧ q'.answer.isSome = true)
    ∧ countAnswered traceT2.questions
        ≤ countAnswered (step traceT2 "more" traceErrEnv).1.questions :=
  ⟨c5_answers_monotone.1 traceT2 traceT2_reachable "more" traceErrEnv 0 traceQ0
      rfl rfl,
   c5_answers_monotone.2 traceT2 "more" traceErrEnv rfl⟩

/-- **C8.** In every reachable session state,
`awaitingConfirmation = true` implies phase = Confirmation. -/
theorem c8_awaiting_only_confirmation (s : Session) (h : Reachable s) :
    s.awaitingConfirmation = true → s.phase = Phase.confirmation :=
  reachable_inv1 s h

/-- Witness for C8 at the reachable state where all eight questions have
been answered: `awaitingConfirmation` is true there, and the phase is
Confirmation. -/
theorem c8_witness : traceT9.phase = Phase.confirmation :=
  c8_awaiting_only_confirmation traceT9 traceT9_reachable rfl

/-- **C10.** `extraNotes` stays the empty sequence in every reachable
session state: no handler ever appends to it. -/
theorem c10_extraNotes_empty (s : Session) (h : Reachable s) :
    s.extraNotes = [] := by
  induction h with
  | init => rfl
  | next s0 m0 e0 _ ih => exact (step_extraNotes s0 m0 e0).trans ih

/-- Witness for C10 at a reachable state two runs in. -/
theorem c10_witness : traceT2.extraNotes = [] :=
  c10_extraNotes_empty traceT2 traceT2_reachable

theorem confirmation_stays (s : Session) (msg : String) (e : OracleEnv)
    (hph : s.phase = Phase.confirmation) (hnp : shouldProceed msg = false) :
    (step s msg e).1.phase = Phase.confirmation := by
  simp only [step, hph]
  unfold handleConfirmation
  split
  · rename_i hpT
    rw [hnp] at hpT
    cases hpT
  · exact (mapAnswer_misc s msg e.mapperO).1.trans hph

theorem confirmation_proceeds (s : Session) (msg : String) (e : OracleEnv)
    (hph : s.phase = Phase.confirmation) (hp : shouldProceed msg = true) :
    (step s msg e).1.phase = Phase.synthesis
    ∧ (step s msg e).1.awaitingConfirmation = false := by
  simp only [step, hph]
  unfold handleConfirmation
  rw [if_pos hp]
  constructor
  · rcases (synthesizer_misc _ e.synthO).2.2.2.2 with hp2 | hp2 <;> exact hp2
  · exact (synthesizer_misc _ e.synthO).2.2.2.1

/-- **C2.** While phase = Confirmation: the run transitions to Synthesis
iff the case-folded, trimmed message contains one of the proceed keywords
(`shouldProceed` is exactly that test); on a match `awaitingConfirmation`
is cleared; and any number of consecutive non-keyword messages leaves the
phase at Confirmation. -/
theorem c2_confirmation_gate (s : Session) (e : OracleEnv)
    (hph : s.phase = Phase.confirmation) :
    (∀ msg, (step s msg e).1.phase = Phase.synthesis
        ↔ shouldProceed msg = true)
    ∧ (∀ msg, shouldProceed msg = true →
        (step s msg e).1.awaitingConfirmation = false)
    ∧ (∀ msgs : List (String × OracleEnv),
        (∀ p ∈ msgs, shouldProceed p.1 = false) →
        (msgs.foldl (fun t p => (step t p.1 p.2).1) s).phase
          = Phase.confirmation) := by
  refine ⟨?_, ?_, ?_⟩
  · intro msg
    constructor
    · intro hsyn
      cases hsp : shouldProceed msg
      · rw [confirmation_stays s msg e hph hsp] at hsyn
        cases hsyn
      · rfl
    · intro hsp
      exact (confirmation_proceeds s msg e hph hsp).1
  · intro msg hsp
    exact (confirmation_proceeds s msg e hph hsp).2
  · intro msgs
    induction msgs generalizing s with
    | nil => intro _; exact hph
    | cons p ps ih =>
      intro hall
      simp only [List.foldl_cons]
      exact ih (step s p.1 p.2).1
        (confirmation_stays s p.1 p.2 hph (hall p (by simp)))
        (fun p2 hp2 => hall p2 (by simp [hp2]))

/-- A session sitting in the confirmation loop. -/
def confSession : Session :=
  { initSession with phase := Phase.confirmation, awaitingConfirmation := true }

/-- Witness for C2: "Yes, go ahead" proceeds to Synthesis; two non-keyword
messages leave the phase at Confirmation. -/
theorem c2_witness :
    (step confSession "Yes, go ahead" traceErrEnv).1.phase = Phase.synthesis
    ∧ (List.foldl (fun t p => (step t p.1 p.2).1) confSession
        [("no not quite", traceErrEnv), ("still thinking", traceErrEnv)]).phase
        = Phase.confirmation :=
  ⟨((c2_confirmation_gate confSession traceErrEnv rfl).1 "Yes, go ahead").mpr
      (by decide),
   (c2_confirmation_gate confSession traceErrEnv rfl).2.2
      [("no not quite", traceErrEnv), ("still thinking", traceErrEnv)]
      (by decide)⟩

/-- **C7 counterexample.**  A successful oracle call whose response string
is empty does not store the raw output: `response.response` is falsy and
the response object is not a string, so the final `else` of agent.ts
lines 467-479 stores `JSON.stringify(response)` — a nonempty string
different from the raw empty output. -/
theorem c7_counterexample :
    (runSynthesizer { initSession with phase := Phase.synthesis }
        (.ok "")).session.finalDoc = some emptyRespStringify
    ∧ emptyRespStringify ≠ "" := by
  refine ⟨rfl, ?_⟩
  decide

/-- **C7 (amended).** When the synthesizer reaches its oracle call
(`synthPromptOk`): if the call throws, the fixed error line is emitted,
the phase is still set to Synthesis, and `finalDoc` is unchanged; if it
succeeds with a nonempty response string, `finalDoc` becomes the oracle's
raw output, it is emitted verbatim, and the phase is Synthesis; if it
succeeds with the empty string, the falsy-payload chain stores
`JSON.stringify(response)` instead, the phase still Synthesis. -/
theorem c7_synthesizer_failure (s : Session)
    (hok : synthPromptOk s.intent = true) :
    ((runSynthesizer s (.error ())).session.phase = Phase.synthesis
     ∧ (runSynthesizer s (.error ())).session.finalDoc = s.finalDoc
     ∧ (runSynthesizer s (.error ())).out = [.synthHeader, .synthError])
    ∧ (∀ text, text ≠ "" →
        (runSynthesizer s (.ok text)).session.finalDoc = some text
        ∧ (runSynthesizer s (.ok text)).session.phase = Phase.synthesis
        ∧ (runSynthesizer s (.ok text)).out
            = [.synthHeader, .synthDoc text])
    ∧ ((runSynthesizer s (.ok "")).session.finalDoc = some emptyRespStringify
        ∧ (runSynthesizer s (.ok "")).session.phase = Phase.synthesis) := by
  refine ⟨?_, ?_, ?_⟩
  · unfold runSynthesizer
    rw [if_neg (fun hc => hc hok)]
    exact ⟨rfl, rfl, rfl⟩
  · intro text ht
    unfold runSynthesizer
    rw [if_neg (fun hc => hc hok)]
    have hsd : synthesizedDoc text = text := by
      unfold synthesizedDoc
      rw [if_neg ht]
    refine ⟨?_, rfl, ?_⟩
    · show some (synthesizedDoc text) = some text
      rw [hsd]
    · show [Out.synthHeader, Out.synthDoc (synthesizedDoc text)]
          = [Out.synthHeader, Out.synthDoc text]
      rw [hsd]
  · unfold runSynthesizer
    rw [if_neg (fun hc => hc hok)]
    exact ⟨rfl, rfl⟩

/-- Witness for C7 on a synthesis-phase session with no stored intent
(the optional chain makes the prompt evaluate): a throw leaves `finalDoc`
null; a success with a nonempty document stores it verbatim; a success
with the empty string stores the stringified envelope. -/
theorem c7_witness :
    (runSynthesizer { initSession with phase := Phase.synthesis }
        (.error ())).session.finalDoc = none
    ∧ (runSynthesizer { initSession with phase := Phase.synthesis }
        (.ok "THE DOC")).session.finalDoc = some "THE DOC"
    ∧ (runSynthesizer { initSession with phase := Phase.synthesis }
        (.ok "")).session.finalDoc = some emptyRespStringify :=
  ⟨(c7_synthesizer_failure { initSession with phase := Phase.synthesis }
      rfl).1.2.1,
   ((c7_synthesizer_failure { initSession with phase := Phase.synthesis }
      rfl).2.1 "THE DOC" (by decide)).1,
   (c7_synthesizer_failure { initSession with phase := Phase.synthesis }
      rfl).2.2.1⟩

/-! ### C1: the planner's output validity -/

/-- A planner oracle response whose own question list repeats the id
`q1`. -/
def dupIdPlannerText : String :=
  "\x7b\"questions\":[\x7b\"id\":\"q1\",\"text\":\"a\",\"category\":\"c\"\x7d,\x7b\"id\":\"q1\",\"text\":\"b\",\"category\":\"c\"\x7d]\x7d"

/-- A session about to run the planner with a well-formed intent. -/
def planSession : Session :=
  { initSession with
    phase := Phase.question_planning
    intent := some (intentFallback "x") }

/-- **C1 counterexample.** On a well-formed oracle response whose own
question list repeats an id, the planner completes normally with eight
questions whose ids are NOT unique: the catalog-collision check skips
catalog duplicates but keeps the oracle's internal duplicates, so the
session ends with two questions with id `q1`. -/
theorem c1_counterexample :
    (runQuestionPlanner planSession (.ok dupIdPlannerText)).aborted = false
    ∧ (runQuestionPlanner planSession
        (.ok dupIdPlannerText)).session.questions.length = 8
    ∧ idsDistinct (runQuestionPlanner planSession
        (.ok dupIdPlannerText)).session.questions = false
    ∧ ((runQuestionPlanner planSession
        (.ok dupIdPlannerText)).session.questions.map (fun q => q.id)).take 2
        = [some (.str "q1"), some (.str "q1")] :=
  ⟨rfl, rfl, rfl, rfl⟩

theorem length_filter_partition {α : Type} (p : α → Bool) (l : List α) :
    (l.filter p).length + (l.filter (fun a => !(p a))).length = l.length := by
  induction l with
  | nil => rfl
  | cons a l ih => cases hp : p a <;> simp [List.filter_cons, hp, ← ih] <;> omega

theorem mergeLoop_length_ge (existing : List (Option Json)) :
    ∀ (cat acc : List Json),
      8 ≤ acc.length + (cat.filter
        (fun f => !(existing.any (fun e => jsEq e (jsGet f "id"))))).length →
      8 ≤ (mergeLoop existing acc cat).length := by
  intro cat
  induction cat with
  | nil => intro acc h; simpa [mergeLoop] using h
  | cons f fs ih =>
    intro acc h
    simp only [mergeLoop]
    by_cases hl : 8 ≤ acc.length
    · rw [if_pos hl]; exact hl
    · rw [if_neg hl]
      cases hc : existing.any (fun e => jsEq e (jsGet f "id")) with
      | true =>
        show 8 ≤ (mergeLoop existing acc fs).length
        apply ih acc
        simpa [List.filter_cons, hc] using h
      | false =>
        show 8 ≤ (mergeLoop existing (acc ++ [f]) fs).length
        apply ih (acc ++ [f])
        simp only [List.filter_cons, hc, Bool.not_false, if_true,
          List.length_append, List.length_cons] at h ⊢
        omega

/-- Strict equality with a string value pins the other operand. -/
theorem jsEq_some_str {e : Option Json} {x : String}
    (h : jsEq e (some (.str x)) = true) : e = some (.str x) := by
  match e with
  | none => cases h
  | some .null => cases h
  | some (.bool b) => cases h
  | some (.num q) => cases h
  | some (.arr l) => cases h
  | some (.obj l) => cases h
  | some (.str a) =>
    simp only [jsEq, jsPrimEq, decide_eq_true_eq] at h
    rw [h]

/-- Every catalog item's id is a string literal. -/
theorem catalog_id_str :
    ∀ f ∈ fallbackQuestions, ∃ str, jsGet f "id" = some (.str str) := by
  intro f hf
  fin_cases hf <;> exact ⟨_, rfl⟩

/-- At most `existing.length` catalog items can collide with `existing`:
the colliding items' ids are pairwise-distinct values each present in
`existing`. -/
theorem colliding_le (existing : List (Option Json)) :
    (fallbackQuestions.filter
      (fun f => existing.any (fun e => jsEq e (jsGet f "id")))).length
      ≤ existing.length := by
  have hsub : (fallbackQuestions.filter
      (fun f => existing.any (fun e => jsEq e (jsGet f "id")))).Sublist
      fallbackQuestions := List.filter_sublist _
  have hmapsub : ((fallbackQuestions.filter
      (fun f => existing.any (fun e => jsEq e (jsGet f "id")))).map
        (fun f => jsGet f "id")).Sublist
      (fallbackQuestions.map (fun f => jsGet f "id")) := hsub.map _
  have hcatN : (fallbackQuestions.map (fun f => jsGet f "id")).Nodup := by
    simp [fallbackQuestions, catalogItem, jsGet, List.nodup_cons]
  have hN : ((fallbackQuestions.filter
      (fun f => existing.any (fun e => jsEq e (jsGet f "id")))).map
        (fun f => jsGet f "id")).Nodup := hmapsub.nodup hcatN
  have hss : ((fallbackQuestions.filter
      (fun f => existing.any (fun e => jsEq e (jsGet f "id")))).map
        (fun f => jsGet f "id")) ⊆ existing := by
    intro x hx
    rw [List.mem_map] at hx
    obtain ⟨f, hf, hfx⟩ := hx
    rw [List.mem_filter] at hf
    obtain ⟨hfcat, hfcoll⟩ := hf
    rw [List.any_eq_true] at hfcoll
    obtain ⟨e, he, heq⟩ := hfcoll
    obtain ⟨str, hstr⟩ := catalog_id_str f hfcat
    rw [hstr] at heq
    have := jsEq_some_str heq
    rw [← hfx, hstr, ← this]
    exact he
  have := (List.subperm_of_subset hN hss).length_le
  simpa using this

theorem plannerRepair_length {qs qs1 : List Json}
    (h : plannerRepair qs = .ok qs1) : 8 ≤ qs1.length := by
  unfold plannerRepair at h
  by_cases h0 : qs.length = 0
  · rw [if_pos h0] at h
    cases h
    decide
  · rw [if_neg h0] at h
    by_cases h8 : qs.length < 8
    · rw [if_pos h8] at h
      by_cases hnull : qs.any isNullJson = true
      · rw [if_pos hnull] at h
        cases h
      · rw [if_neg hnull] at h
        cases h
        apply mergeLoop_length_ge
        have hpart := length_filter_partition
          (fun f => (qs.map (fun j => jsGet j "id")).any
            (fun e => jsEq e (jsGet f "id"))) fallbackQuestions
        have hcoll := colliding_le (qs.map (fun j => jsGet j "id"))
        have hcat : fallbackQuestions.length = 8 := rfl
        rw [List.length_map] at hcoll
        omega
    · rw [if_neg h8] at h
      cases h
      omega

theorem idsDistinctJ_iff (l : List (Option Json)) :
    idsDistinctJ l = true ↔ List.Pairwise (fun a b => jsEq a b = false) l := by
  induction l with
  | nil => simp [idsDistinctJ]
  | cons x xs ih =>
    simp only [idsDistinctJ, Bool.and_eq_true, List.all_eq_true,
      List.pairwise_cons, ih, Bool.not_eq_eq_eq_not, Bool.not_true]

/-- The merge loop appends a sublist of the non-colliding catalog items. -/
theorem mergeLoop_struct (existing : List (Option Json)) :
    ∀ (cat acc : List Json), ∃ res,
      mergeLoop existing acc cat = acc ++ res
      ∧ res.Sublist (cat.filter
          (fun f => !(existing.any (fun e => jsEq e (jsGet f "id"))))) := by
  intro cat
  induction cat with
  | nil => intro acc; exact ⟨[], by simp [mergeLoop], List.nil_sublist _⟩
  | cons f fs ih =>
    intro acc
    simp only [mergeLoop]
    by_cases hl : 8 ≤ acc.length
    · rw [if_pos hl]
      exact ⟨[], by simp, List.nil_sublist _⟩
    · rw [if_neg hl]
      cases hc : existing.any (fun e => jsEq e (jsGet f "id")) with
      | true =>
        obtain ⟨res, heq, hsub⟩ := ih acc
        refine ⟨res, heq, ?_⟩
        simpa [List.filter_cons, hc] using hsub
      | false =>
        obtain ⟨res, heq, hsub⟩ := ih (acc ++ [f])
        refine ⟨f :: res, by rw [heq]; simp, ?_⟩
        simp only [List.filter_cons, hc, Bool.not_false, if_true]
        exact hsub.cons₂ f

theorem plannerRepair_unique {qs qs1 : List Json}
    (h : plannerRepair qs = .ok qs1)
    (hd : idsDistinctJ (qs.map (fun j => jsGet j "id")) = true) :
    idsDistinctJ (qs1.map (fun j => jsGet j "id")) = true := by
  unfold plannerRepair at h
  by_cases h0 : qs.length = 0
  · rw [if_pos h0] at h
    cases h
    decide
  · rw [if_neg h0] at h
    by_cases h8 : qs.length < 8
    · rw [if_pos h8] at h
      by_cases hnull : qs.any isNullJson = true
      · rw [if_pos hnull] at h
        cases h
      · rw [if_neg hnull] at h
        cases h
        obtain ⟨res, heq, hsub⟩ :=
          mergeLoop_struct (qs.map (fun j => jsGet j "id")) fallbackQuestions qs
        rw [heq, idsDistinctJ_iff, List.map_append, List.pairwise_append]
        have hcatP : List.Pairwise (fun a b => jsEq a b = false)
            (fallbackQuestions.map (fun f => jsGet f "id")) := by
          rw [← idsDistinctJ_iff]
          decide
        refine ⟨(idsDistinctJ_iff _).mp hd, ?_, ?_⟩
        · -- the appended ids are pairwise distinct: a sublist of the catalog ids
          have hsl : (res.map (fun j => jsGet j "id")).Sublist
              (fallbackQuestions.map (fun f => jsGet f "id")) :=
            (hsub.trans (List.filter_sublist _)).map _
          exact List.Pairwise.sublist hsl hcatP
        · -- cross distinctness: appended items were checked against `existing`
          intro a ha b hb
          rw [List.mem_map] at hb
          obtain ⟨f, hf, hfb⟩ := hb
          have hf2 := hsub.subset hf
          rw [List.mem_filter] at hf2
          have hnc := hf2.2
          rw [Bool.not_eq_eq_eq_not, Bool.not_true, List.any_eq_false] at hnc
          rw [← hfb]
          exact Bool.eq_false_iff.mpr (hnc a ha)
    · rw [if_neg h8] at h
      cases h
      exact hd

theorem plannerCore_decode_err {s : Session} {text : String} {u : Unit}
    (hdec : decodeQuestions text = .error u) :
    plannerCore s text = ⟨s, [], true⟩ := by
  unfold plannerCore
  rw [hdec]

theorem plannerCore_repair_err {s : Session} {text : String}
    {qs0 : List Json} {u : Unit} (hdec : decodeQuestions text = .ok qs0)
    (hrep : plannerRepair qs0 = .error u) :
    plannerCore s text = ⟨s, [], true⟩ := by
  unfold plannerCore
  rw [hdec]
  show (match plannerRepair qs0 with
      | Except.error _ => (⟨s, [], true⟩ : HRes)
      | Except.ok qs1 =>
        ⟨{ s with questions := qs1.map mkQuestion, phase := Phase.interview },
         [], false⟩) = (⟨s, [], true⟩ : HRes)
  rw [hrep]

theorem plannerCore_ok {s : Session} {text : String} {qs0 qs1 : List Json}
    (hdec : decodeQuestions text = .ok qs0)
    (hrep : plannerRepair qs0 = .ok qs1) :
    plannerCore s text
      = ⟨{ s with questions := qs1.map mkQuestion, phase := Phase.interview },
         [], false⟩ := by
  unfold plannerCore
  rw [hdec]
  show (match plannerRepair qs0 with
      | Except.error _ => (⟨s, [], true⟩ : HRes)
      | Except.ok qs1 =>
        ⟨{ s with questions := qs1.map mkQuestion, phase := Phase.interview },
         [], false⟩)
    = ⟨{ s with questions := qs1.map mkQuestion, phase := Phase.interview },
       [], false⟩
  rw [hrep]

/-- The ids of the built session questions are the decoded entries'
`id` fields. -/
theorem mkQuestion_ids (l : List Json) :
    ((l.map mkQuestion).map (fun q => q.id)) = l.map (fun j => jsGet j "id") := by
  rw [List.map_map]
  rfl

/-- **C1 amended.** Whenever the planner is invoked on a truthy intent and
the run completes without throwing, the session's `questions` has length
at least 8 and in particular is never empty — for every oracle response,
well-formed, malformed, empty, or colliding with the catalog.  The ids
are additionally pairwise distinct provided the oracle's own decoded ids
are pairwise distinct; the unconditional uniqueness stated by the claim
fails (`c1_counterexample`), because the merge only skips catalog items
colliding with oracle ids and never deduplicates the oracle's list
itself. -/
theorem c1_amended (s : Session) (o : OracleCall)
    (htr : jsTruthyO s.intent = true)
    (hab : (runQuestionPlanner s o).aborted = false) :
    (8 ≤ (runQuestionPlanner s o).session.questions.length
     ∧ (runQuestionPlanner s o).session.questions ≠ [])
    ∧ (∀ text qs0, o = .ok text → decodeQuestions text = .ok qs0 →
        idsDistinctJ (qs0.map (fun j => jsGet j "id")) = true →
        idsDistinct (runQuestionPlanner s o).session.questions = true) := by
  unfold runQuestionPlanner at hab ⊢
  rw [if_neg (fun hc => hc htr)] at hab ⊢
  cases hej : s.intent.elim false goalsJoinable with
  | false =>
    rw [hej] at hab
    rw [if_pos (show ¬ (false = true) from fun hc => Bool.noConfusion hc)] at hab
    cases hab
  | true =>
    rw [hej] at hab
    rw [if_neg (show ¬ ¬ (true = true) from fun hc => hc rfl)] at hab ⊢
    cases o with
    | error u => cases hab
    | ok text =>
      have hab2 : (plannerCore s text).aborted = false := hab
      cases hdec : decodeQuestions text with
      | error u =>
        rw [plannerCore_decode_err hdec] at hab2
        cases hab2
      | ok qs0 =>
        cases hrep : plannerRepair qs0 with
        | error u =>
          rw [plannerCore_repair_err hdec hrep] at hab2
          cases hab2
        | ok qs1 =>
          show (8 ≤ (plannerCore s text).session.questions.length
                ∧ (plannerCore s text).session.questions ≠ []) ∧ _
          rw [plannerCore_ok hdec hrep]
          constructor
          · constructor
            · show 8 ≤ (qs1.map mkQuestion).length
              rw [List.length_map]
              exact plannerRepair_length hrep
            · show (qs1.map mkQuestion) ≠ []
              intro hnil
              have h8 := plannerRepair_length hrep
              rw [← List.length_map (f := mkQuestion), hnil] at h8
              simp at h8
          · intro text' qs0' heq hdec' hd
            cases heq
            rw [hdec] at hdec'
            cases hdec'
            show idsDistinct (plannerCore s text).session.questions = true
            rw [plannerCore_ok hdec hrep]
            show idsDistinct (qs1.map mkQuestion) = true
            unfold idsDistinct
            rw [mkQuestion_ids]
            exact plannerRepair_unique hrep hd

/-- Witness for C1 (amended) at a concrete input: an oracle response whose
JSON carries an empty question array yields the full catalog — eight
questions, nonempty, distinct ids. -/
theorem c1_witness :
    (8 ≤ (runQuestionPlanner planSession
        (.ok "\x7b\"questions\":[]\x7d")).session.questions.length
      ∧ (runQuestionPlanner planSession
          (.ok "\x7b\"questions\":[]\x7d")).session.questions ≠ [])
    ∧ idsDistinct (runQuestionPlanner planSession
        (.ok "\x7b\"questions\":[]\x7d")).session.questions = true :=
  ⟨(c1_amended planSession (.ok "\x7b\"questions\":[]\x7d") rfl rfl).1,
   (c1_amended planSession (.ok "\x7b\"questions\":[]\x7d") rfl rfl).2
     "\x7b\"questions\":[]\x7d" [] rfl rfl rfl⟩

/-! ### C6: the intent handler's defensive parse -/

theorem oracleJson_none {text : String}
    (h : greedyBraceExtract (jsTrim text) = none) : oracleJson text = none := by
  unfold oracleJson
  rw [h]

theorem oracleJson_some {text : String} {sub : String}
    (h : greedyBraceExtract (jsTrim text) = some sub) :
    oracleJson text = jsonParse sub := by
  unfold oracleJson
  rw [h]

theorem computeIntent_fallback {text raw : String} (h : oracleJson text = none) :
    computeIntent text raw = intentFallback raw := by
  unfold computeIntent
  rw [h]

theorem computeIntent_parsed {text raw : String} {j : Json}
    (h : oracleJson text = some j) : computeIntent text raw = j := by
  unfold computeIntent
  rw [h]

theorem runIntentAgent_ok {s : Session} {raw text : String} {e : OracleEnv}
    (hok : e.intentO = .ok text) :
    runIntentAgent s raw e =
      if ¬ goalsJoinable (computeIntent text raw) then
        ⟨{ s with
            intent := some (computeIntent text raw)
            phase := Phase.question_planning }, [.intentAck], true⟩
      else
        intentChain
          { s with
            intent := some (computeIntent text raw)
            phase := Phase.question_planning } e := by
  unfold runIntentAgent
  rw [hok]

theorem intentChain_intent (s1 : Session) (e : OracleEnv) :
    (intentChain s1 e).session.intent = s1.intent := by
  unfold intentChain
  split
  · exact (planner_misc s1 e.plannerO).2.1
  · exact ((interviewTurn_misc (runQuestionPlanner s1 e.plannerO).session none
      e.mapperO).2.1).trans (planner_misc s1 e.plannerO).2.1

/-- The C6 oracle response: a perfectly parseable intent object followed by
one stray right brace. -/
def c6text : String :=
  "\x7b\"projectName\":\"Chat\",\"scope\":\"Full\",\"goals\":[\"g\"]\x7d \x7d"

def c6raw : String := "I want a chat app"

def c6env : OracleEnv := ⟨.ok c6text, .error (), .error (), .error ()⟩

/-- **C6 counterexample.** The response `c6text` does contain a first
top-level balanced-brace JSON object substring, and it parses (to an
object with `projectName` "Chat") — so under the claim the intent would be
that object.  The code's regex is greedy (first `\x7b` to LAST `\x7d`), its
match fails to parse, and the stored intent is exactly the fallback
record (`projectName` "Unknown" ≠ "Chat"). -/
theorem c6_counterexample :
    (∃ sub j, firstBalancedSub c6text = some sub ∧ jsonParse sub = some j
        ∧ jsGet j "projectName" = some (.str "Chat"))
    ∧ (runIntentAgent initSession c6raw c6env).session.intent
        = some (intentFallback c6raw)
    ∧ jsGet (intentFallback c6raw) "projectName" = some (.str "Unknown")
    ∧ (Json.str "Chat") ≠ (Json.str "Unknown") := by
  refine ⟨⟨_, _, rfl, rfl, rfl⟩, rfl, rfl, ?_⟩
  intro h
  injection h with h2
  exact absurd h2 (by decide)

/-- **C6 amended.** When the intent oracle call returns `text`, the stored
intent is `computeIntent text raw`, characterized by: the extraction is
the greedy regex match — first left brace through the last right brace of
the trimmed text — not the first balanced-brace substring; if there is no
match, or `JSON.parse` of the match throws, the intent is exactly
`\x7bprojectName: "Unknown", scope: "General", goals: [raw]\x7d`; otherwise it
is the parsed value. -/
theorem c6_amended (s : Session) (raw text : String) (e : OracleEnv)
    (hok : e.intentO = .ok text) :
    ((runIntentAgent s raw e).session.intent = some (computeIntent text raw))
    ∧ (greedyBraceExtract (jsTrim text) = none →
        computeIntent text raw = intentFallback raw)
    ∧ (∀ sub, greedyBraceExtract (jsTrim text) = some sub →
        jsonParse sub = none → computeIntent text raw = intentFallback raw)
    ∧ (∀ sub j, greedyBraceExtract (jsTrim text) = some sub →
        jsonParse sub = some j → computeIntent text raw = j) := by
  refine ⟨?_, ?_, ?_, ?_⟩
  · rw [runIntentAgent_ok hok]
    split
    · rfl
    · exact intentChain_intent _ e
  · intro hnone
    exact computeIntent_fallback (oracleJson_none hnone)
  · intro sub hsub hparse
    exact computeIntent_fallback ((oracleJson_some hsub).trans hparse)
  · intro sub j hsub hparse
    exact computeIntent_parsed ((oracleJson_some hsub).trans hparse)

/-- Witness for C6 (amended): a braceless oracle response stores exactly
the fallback record. -/
theorem c6_witness :
    (runIntentAgent initSession "hi"
        ⟨.ok "no braces at all", .error (), .error (), .error ()⟩).session.intent
      = some (intentFallback "hi") := by
  have h := c6_amended initSession "hi" "no braces at all"
    ⟨.ok "no braces at all", .error (), .error (), .error ()⟩ rfl
  rw [h.1, h.2.1 rfl]

end DecisionLog
